import Mathlib

/- Verification of the normalization + derivation + aggregation engine of the
   patient no-show dashboard (src/patient-dashboard/src/PatientNoShowDashboard.jsx).

   JavaScript values occurring in parsed CSV rows are modelled by JSVal:
   strings, finite numbers (as rationals; every finite JS number is rational),
   and null.  Rows are association lists in header order, matching JS object
   key insertion order; property reads and writes act on the first binding of
   a key, matching JS objects (which hold one binding per key).  The host
   timezone is fixed to UTC, so Date getters coincide with the UTC calendar. -/

namespace NoShow

/-- Whitespace characters recognised by the model of String.prototype.trim
    (ASCII whitespace; the CSV cells are pre-trimmed by the parser transform). -/
def isWSChar (c : Char) : Bool :=
  c.toNat = 32 || c.toNat = 9 || c.toNat = 10 || c.toNat = 13
    || c.toNat = 11 || c.toNat = 12

/-- Model of String.prototype.trim on the character list. -/
def trimList (cs : List Char) : List Char :=
  ((cs.dropWhile isWSChar).reverse.dropWhile isWSChar).reverse

/-- Model of String.prototype.trim. -/
def trimStr (s : String) : String := String.mk (trimList s.data)

/-- Model of String.prototype.toLowerCase (ASCII range; the headers and
    sentinel labels compared in the source are ASCII). -/
def lowerStr (s : String) : String := String.mk (s.data.map Char.toLower)

/-- Decimal digit character test. -/
def isDigitC (c : Char) : Bool := 48 ≤ c.toNat && c.toNat ≤ 57

/-- Numeric value of a decimal digit character. -/
def digitVal (c : Char) : ℕ := c.toNat - 48

/-- Decimal digit character of a value below 10. -/
def charOfDigit (d : ℕ) : Char := Char.ofNat (48 + d)

/-- Big-endian decimal digit characters of a positive natural number,
    fuel-structured so the kernel can evaluate it (n is always enough fuel). -/
def natDigitsAux : ℕ → ℕ → List Char
  | 0, _ => []
  | _, 0 => []
  | fuel + 1, n + 1 => natDigitsAux fuel ((n + 1) / 10) ++ [charOfDigit ((n + 1) % 10)]

/-- Model of String(n) for a non-negative integer. -/
def natToStr (n : ℕ) : String :=
  if n = 0 then "0" else String.mk (natDigitsAux n n)

/-- Model of String(z) for an integer. -/
def intToStr (z : ℤ) : String :=
  if z < 0 then "-" ++ natToStr z.natAbs else natToStr z.natAbs

/-- Value of a big-endian decimal digit character list. -/
def digitsVal (cs : List Char) : ℕ := cs.foldl (fun a c => a * 10 + digitVal c) 0

/-- Parse a non-empty all-digit character list. -/
def parseNatDigits (cs : List Char) : Option ℕ :=
  if !cs.isEmpty && cs.all isDigitC then some (digitsVal cs) else none

/-- Model of the decimal part of JavaScript Number(string) conversion: optional
    integer part, optional fraction, at least one digit.  Hexadecimal, exponent
    and Infinity forms are outside the model (the CSV cells never use them). -/
def parseUnsigned (cs : List Char) : Option ℚ :=
  let ip := cs.takeWhile (fun c => c ≠ '.')
  match cs.dropWhile (fun c => c ≠ '.') with
  | [] => (parseNatDigits ip).map (fun n => (n : ℚ))
  | _ :: fp =>
      if fp.contains '.' then none
      else if (!ip.isEmpty || !fp.isEmpty) && ip.all isDigitC && fp.all isDigitC then
        some (Rat.divInt ((digitsVal ip * 10 ^ fp.length + digitsVal fp : ℕ) : ℤ)
          ((10 ^ fp.length : ℕ) : ℤ))
      else none

/-- Model of JavaScript Number(string) on a pre-trimmed string (sign plus
    unsigned decimal). -/
def parseJSNum (s : String) : Option ℚ :=
  match s.data with
  | [] => none
  | c :: rest =>
      if c = '-' then (parseUnsigned rest).map Neg.neg
      else if c = '+' then parseUnsigned rest
      else parseUnsigned (c :: rest)

/-- Multiplicity of a prime p in n, fuel-structured (n is always enough fuel). -/
def multAux (p : ℕ) : ℕ → ℕ → ℕ
  | 0, _ => 0
  | fuel + 1, n => if 2 ≤ p && n % p = 0 && n ≠ 0 then multAux p fuel (n / p) + 1 else 0

/-- Model of String(x) for a finite JS number: integers print as plain decimal
    digit strings and numbers with a terminating decimal expansion print with a
    fraction part, both exactly as in JS; a rational whose expansion does not
    terminate (impossible for an actual binary-float JS number) is rendered in
    a fraction notation that Number(_) rejects, so both sides of every property
    proved here land in the same branch as in JS. -/
def numToStrQ (q : ℚ) : String :=
  if q.den = 1 then intToStr q.num
  else
    let a := multAux 2 q.den q.den
    let b := multAux 5 q.den q.den
    if 2 ^ a * 5 ^ b = q.den then
      let k := max a b
      let N := q.num.natAbs * (10 ^ k / q.den)
      let frac := natDigitsAux (N % 10 ^ k) (N % 10 ^ k)
      (if q.num < 0 then "-" else "") ++ natToStr (N / 10 ^ k) ++ "." ++
        String.mk (List.replicate (k - frac.length) '0' ++ frac)
    else intToStr q.num ++ "/" ++ natToStr q.den

/-- JavaScript values that occur in parsed CSV rows. -/
inductive JSVal where
  | str (s : String)
  | num (q : ℚ)
  | null
deriving DecidableEq

/-- A parsed CSV row: one binding per header, in header order. -/
abbrev Row := List (String × JSVal)

/-- Property access obj.key, none for undefined (absent key). -/
def jsGet (r : Row) (k : String) : Option JSVal :=
  (r.find? (fun kv => kv.1 == k)).map (·.2)

/-- Property assignment obj.key = v: replace the binding in place, append if
    the key is absent (JS object insertion-order semantics). -/
def setField (k : String) (v : JSVal) : Row → Row
  | [] => [(k, v)]
  | (k', v') :: t => if k' = k then (k, v) :: t else (k', v') :: setField k v t

/-- JS truthiness of a value (NaN does not occur in the model). -/
def jsTruthy : JSVal → Bool
  | .str s => !s.isEmpty
  | .num q => q != 0
  | .null => false

/-- Model of String(v). -/
def jsToString : JSVal → String
  | .str s => s
  | .num q => numToStrQ q
  | .null => "null"

/-- Model of toNum (source lines 926-932): null maps to null, a string is
    trimmed and converted with Number(_) (empty and non-numeric strings map to
    null), and a finite number passes through unchanged, because
    Number(String(x).trim()) is the identity on finite JS numbers. -/
def toNum : JSVal → Option ℚ
  | .null => none
  | .num q => some q
  | .str s =>
      let t := trimStr s
      if t.isEmpty then none else parseJSNum t

/-- Model of toBin01 (source lines 934-939). -/
def toBin01 (v : JSVal) : String :=
  let n := toNum v
  if n = some 1 then "1"
  else if n = some 0 then "0"
  else
    match v with
    | .null => ""
    | w => trimStr (jsToString w)

/-- Days since the Unix epoch of a civil date (proleptic Gregorian, Howard
    Hinnant's days_from_civil, which is what JS Date arithmetic implements). -/
def daysFromCivil (y : ℤ) (m d : ℕ) : ℤ :=
  let y' := if m ≤ 2 then y - 1 else y
  let era := Int.fdiv y' 400
  let yoe := y' - era * 400
  let mp : ℤ := if m ≤ 2 then (m : ℤ) + 9 else (m : ℤ) - 3
  let doy := Int.fdiv (153 * mp + 2) 5 + (d : ℤ) - 1
  let doe := yoe * 365 + Int.fdiv yoe 4 - Int.fdiv yoe 100 + doy
  era * 146097 + doe - 719468

/-- Civil date (year, month, day) of a count of days since the Unix epoch
    (Hinnant's civil_from_days). -/
def civilFromDays (z : ℤ) : ℤ × ℕ × ℕ :=
  let z' := z + 719468
  let era := Int.fdiv z' 146097
  let doe := z' - era * 146097
  let yoe := Int.fdiv (doe - Int.fdiv doe 1460 + Int.fdiv doe 36524 - Int.fdiv doe 146096) 365
  let y := yoe + era * 400
  let doy := doe - (365 * yoe + Int.fdiv yoe 4 - Int.fdiv yoe 100)
  let mp := Int.fdiv (5 * doy + 2) 153
  let d := doy - Int.fdiv (153 * mp + 2) 5 + 1
  let m := if mp < 10 then mp + 3 else mp - 9
  (if m ≤ 2 then y + 1 else y, m.toNat, d.toNat)

/-- Gregorian leap-year test. -/
def isLeap (y : ℤ) : Bool :=
  Int.emod y 4 = 0 && (Int.emod y 100 != 0 || Int.emod y 400 = 0)

/-- Days in a month. -/
def daysInMonth (y : ℤ) (m : ℕ) : ℕ :=
  if m = 2 then (if isLeap y then 29 else 28)
  else if m = 4 || m = 6 || m = 9 || m = 11 then 30 else 31

/-- Value of a fixed-width run of digit characters, none if any is not a digit. -/
def fixedDigits (cs : List Char) : Option ℕ :=
  if cs.all isDigitC then some (digitsVal cs) else none

/-- Parse the calendar part YYYY-MM-DD of a date string into days since epoch. -/
def parseDatePart (cs : List Char) : Option ℤ :=
  match cs with
  | [y1, y2, y3, y4, '-', m1, m2, '-', d1, d2] =>
      match fixedDigits [y1, y2, y3, y4], fixedDigits [m1, m2], fixedDigits [d1, d2] with
      | some y, some m, some d =>
          if 1 ≤ m && m ≤ 12 && 1 ≤ d && d ≤ daysInMonth (y : ℤ) m then
            some (daysFromCivil (y : ℤ) m d)
          else none
      | _, _, _ => none
  | _ => none

/-- Parse the time-of-day part HH:mm[:ss[.mmm]] into milliseconds. -/
def parseTimePart (cs : List Char) : Option ℤ :=
  let comp : List Char → List Char → List Char → List Char → Option ℤ :=
    fun h mi s ms =>
      match fixedDigits h, fixedDigits mi, fixedDigits s, fixedDigits ms with
      | some hv, some miv, some sv, some msv =>
          if hv ≤ 23 && miv ≤ 59 && sv ≤ 59 then
            some ((hv : ℤ) * 3600000 + (miv : ℤ) * 60000 + (sv : ℤ) * 1000 + (msv : ℤ))
          else none
      | _, _, _, _ => none
  match cs with
  | [h1, h2, ':', m1, m2] => comp [h1, h2] [m1, m2] ['0'] ['0']
  | [h1, h2, ':', m1, m2, ':', s1, s2] => comp [h1, h2] [m1, m2] [s1, s2] ['0']
  | [h1, h2, ':', m1, m2, ':', s1, s2, '.', x1, x2, x3] =>
      comp [h1, h2] [m1, m2] [s1, s2] [x1, x2, x3]
  | _ => none

/-- Model of JS date-string parsing (new Date(string).getTime(), host timezone
    UTC): an ISO-like date with an optional time separated by 'T' or by a
    space (the space form is what the V8 engine running the dashboard
    accepts), with an optional trailing 'Z'.  Forms outside this grammar
    (which do not occur as CSV date cells) are invalid dates in the model. -/
def parseJSDate (s : String) : Option ℤ :=
  let cs := s.data
  match parseDatePart (cs.take 10) with
  | none => none
  | some days =>
      match cs.drop 10 with
      | [] => some (days * 86400000)
      | sep :: timeCs =>
          if sep = 'T' || sep = ' ' then
            let t := if timeCs.getLast? = some 'Z' then timeCs.dropLast else timeCs
            (parseTimePart t).map (fun ms => days * 86400000 + ms)
          else none

/-- Truncation of a JS number toward zero (the ToInteger step new Date(number)
    applies to a millisecond argument). -/
def jsTrunc (q : ℚ) : ℤ := if q < 0 then -Int.floor (-q) else Int.floor q

/-- Model of new Date(v).getTime() for a raw cell value: a string goes through
    date-string parsing, a number is truncated to milliseconds since epoch. -/
def jsNewDateMs : JSVal → Option ℤ
  | .str s => parseJSDate s
  | .num q => some (jsTrunc q)
  | .null => none

/-- First truthy value of a JS a || b || ... chain over optional properties,
    none when every operand is absent or falsy (the chains below only ever
    consume the result under a truthiness guard or a ==-null / empty-string
    test, where a trailing falsy operand and none coincide). -/
def firstTruthy (vs : List (Option JSVal)) : Option JSVal :=
  match vs with
  | [] => none
  | v :: t =>
      match v with
      | some w => if jsTruthy w then some w else firstTruthy t
      | none => firstTruthy t

/-- Case/punctuation-insensitive header normalization normKey (source line
    944): lower-case, keep only letters and digits. -/
def normKey (k : String) : String :=
  String.mk ((k.data.map Char.toLower).filter
    (fun c => (97 ≤ c.toNat && c.toNat ≤ 122) || isDigitC c))

/-- Model of pickField (source lines 947-950): the value of the first header
    whose normalized form matches the target, none when there is no match. -/
def pickField (r : Row) (targetNorm : String) : Option JSVal :=
  (r.find? (fun kv => normKey kv.1 == targetNorm)).map (·.2)

/-- Model of toDate inside getWaitingDays (source lines 970-977): null check,
    String(_).trim(), single space rewritten to 'T' when no 'T' is present,
    then date parsing. -/
def toDateModel : Option JSVal → Option ℤ
  | none => none
  | some .null => none
  | some v =>
      let s := trimStr (jsToString v)
      if s.isEmpty then none
      else
        let cs := s.data
        let iso := if cs.contains ' ' && !cs.contains 'T' then
            (cs.takeWhile (fun c => c ≠ ' ')) ++ 'T' :: (cs.dropWhile (fun c => c ≠ ' ')).tail
          else cs
        parseJSDate (String.mk iso)

/-- Explicit waiting-days candidates of getWaitingDays (source lines 953-960),
    in source order: three exact field names, then three normalized-header
    lookups. -/
def explicitCandidates (r : Row) : List (Option JSVal) :=
  [jsGet r "WaitingDays", jsGet r "AwaitingTime", jsGet r "AwaitingDays",
   pickField r "waitingdays", pickField r "awaitingtime", pickField r "awaitingdays"]

/-- First candidate whose value parses to a non-null number (the loop at
    source lines 962-965; toNum of an absent field is null). -/
def firstParsed : List (Option JSVal) → Option ℚ
  | [] => none
  | v :: t =>
      match v with
      | none => firstParsed t
      | some w =>
          match toNum w with
          | some n => some n
          | none => firstParsed t

/-- Date-difference fallback of getWaitingDays (source lines 979-991):
    floor((appointment - scheduled) / one day), clamped to a minimum of 0. -/
def dateFallback (r : Row) : Option ℚ :=
  let scheduledRaw := firstTruthy [jsGet r "ScheduledDay", jsGet r "ScheduledDate",
    jsGet r "Scheduled", jsGet r "Scheduled_Day", pickField r "scheduledday"]
  let apptRaw := firstTruthy [jsGet r "AppointmentDay", jsGet r "AppointmentDate",
    jsGet r "Appointment", jsGet r "Appointment_Day", pickField r "appointmentday"]
  match toDateModel scheduledRaw, toDateModel apptRaw with
  | some scheduled, some appt =>
      let diffDays := Int.fdiv (appt - scheduled) 86400000
      some (((if diffDays < 0 then 0 else diffDays) : ℤ) : ℚ)
  | _, _ => none

/-- Model of getWaitingDays (source lines 941-994). -/
def getWaitingDays (r : Row) : Option ℚ :=
  match firstParsed (explicitCandidates r) with
  | some n => some n
  | none => dateFallback r

/-- Day-of-week (0 = Sunday .. 6 = Saturday) of a day count since the epoch
    (1970-01-01 was a Thursday). -/
def dayOfWeek (n : ℤ) : ℤ := (n + 4) % 7

/-- Two-digit zero padding (String(_).padStart(2, '0')). -/
def pad2 (n : ℕ) : String := if n < 10 then "0" ++ natToStr n else natToStr n

/-- Format a civil date as YYYY-MM-DD with two-digit month and day padding
    (the template at source lines 1021-1024; the year is not padded). -/
def formatCivil (c : ℤ × ℕ × ℕ) : String :=
  intToStr c.1 ++ "-" ++ pad2 c.2.1 ++ "-" ++ pad2 c.2.2

/-- Monday-start week label derived from a millisecond timestamp (source lines
    1015-1024): day-of-week 0 (Sunday) maps to offset -6, any other day to
    1 - day; the label is the civil date of the appointment day shifted by
    that offset (setDate handles month rollover, which is exactly day-count
    arithmetic). -/
def mondayLabel (t : ℤ) : String :=
  let dayNum := Int.fdiv t 86400000
  let day := dayOfWeek dayNum
  let diffToMonday := if day = 0 then -6 else 1 - day
  formatCivil (civilFromDays (dayNum + diffToMonday))

/-- Week-needs-derivation test (source line 1013): absent, falsy, blank after
    trimming, or equal to 'unknown' after lower-casing. -/
def weekNeedsDerive (cur : Option JSVal) : Bool :=
  match cur with
  | none => true
  | some v => !jsTruthy v || (trimStr (jsToString v)).isEmpty
      || lowerStr (jsToString v) == "unknown"

/-- Value held by Week after the row normalization (source lines 1010-1031):
    keep a usable existing label, otherwise derive from the appointment
    timestamp, with 'Unknown' when that is absent or unparseable. -/
def resolveWeek (r : Row) : JSVal :=
  let cur := jsGet r "Week"
  if weekNeedsDerive cur then
    match firstTruthy [jsGet r "AppointmentDay", jsGet r "Appointment",
        jsGet r "AppointmentDate"] with
    | some a =>
        match jsNewDateMs a with
        | some t => .str (mondayLabel t)
        | none => .str "Unknown"
    | none => .str "Unknown"
  else cur.getD .null

/-- JS value of a toNum normalization result (null for null). -/
def numOrNull : Option ℚ → JSVal
  | some n => .num n
  | none => .null

/-- Week phase of the row normalization (source lines 1010-1031): the Week
    property is written only in the derive case. -/
def normWeekStep (r : Row) : Row :=
  if weekNeedsDerive (jsGet r "Week") then setField "Week" (resolveWeek r) r else r

/-- Conditional field rewrite of the row normalization: the property is
    rewritten through f only when present (the !== undefined guards at source
    lines 1033, 1038 and 1043). -/
def normFieldStep (k : String) (f : JSVal → JSVal) (r : Row) : Row :=
  match jsGet r k with
  | some v => setField k (f v) r
  | none => r

/-- Per-row normalization of parseCSV (source lines 1010-1048): derive Week
    when needed, canonicalize SMS_received with toBin01, coerce NoShow and
    WaitingDays with toNum. -/
def normalizeRow (r : Row) : Row :=
  normFieldStep "WaitingDays" (fun v => numOrNull (toNum v))
    (normFieldStep "NoShow" (fun v => numOrNull (toNum v))
      (normFieldStep "SMS_received" (fun v => .str (toBin01 v))
        (normWeekStep r)))

/-- The active filter set. -/
structure FilterSet where
  ageGroup : String
  smsReceived : String
  week : String
deriving DecidableEq

/-- Strict equality row.Field === filterValue between an optional property and
    a filter string (an absent or non-string value is never equal). -/
def jsEqStr (v : Option JSVal) (s : String) : Bool :=
  v == some (.str s)

/-- Model of filteredData (source lines 1138-1147). -/
def filteredData (rows : List Row) (fs : FilterSet) : List Row :=
  rows.filter (fun r =>
    (fs.ageGroup == "All" || jsEqStr (jsGet r "AgeGroup") fs.ageGroup)
    && (fs.smsReceived == "All" || jsEqStr (jsGet r "SMS_received") fs.smsReceived)
    && (fs.week == "All" || jsEqStr (jsGet r "Week") fs.week))

/-- NoShow === 1 test used by every tally. -/
def isNoShow1 (r : Row) : Bool := jsGet r "NoShow" == some (.num 1)

/-- Rounding to one decimal place: the model of toFixed(1) on the non-negative
    values it is applied to (round to nearest, ties up). -/
def round1 (q : ℚ) : ℚ := (round (q * 10) : ℤ) / 10

/-- KPI summary record. -/
structure KPIs where
  total : ℕ
  noShows : ℕ
  shows : ℕ
  noShowRate : ℚ
deriving DecidableEq

/-- Model of kpis (source lines 1149-1158): shows is the complement
    total - noShows, and the empty filtered set short-circuits to zeros. -/
def kpis (rows : List Row) : KPIs :=
  if rows.isEmpty then ⟨0, 0, 0, 0⟩
  else
    let total := rows.length
    let noShows := rows.countP isNoShow1
    ⟨total, noShows, total - noShows, round1 ((noShows : ℚ) / (total : ℚ) * 100)⟩

/-- Model of overallKpis.noShowRate (source lines 1160-1168).  The argument is
    the loaded-dataset state: none models csvData = null (nothing loaded),
    some rows a loaded dataset.  A result of none models the NaN produced by
    ((0/0)*100).toFixed(1): the truthiness guard covers only null, not a
    loaded empty dataset, whose length-zero division is unguarded. -/
def overallKpisRate : Option (List Row) → Option ℚ
  | none => some 0
  | some rows =>
      if rows.length = 0 then none
      else some (round1 ((rows.countP isNoShow1 : ℚ) / (rows.length : ℚ) * 100))

/-- Model of activeFilterCount (source lines 1090-1096). -/
def activeFilterCount (fs : FilterSet) : ℕ :=
  (if fs.ageGroup ≠ "All" then 1 else 0) + (if fs.smsReceived ≠ "All" then 1 else 0)
    + (if fs.week ≠ "All" then 1 else 0)

/-- Insight text of the similar-to-average branch (source line 1201). -/
def insightSimilar : String := "This segment performs similarly to the overall average."

/-- Insight text of the flagged elevated-risk branch (source line 1203). -/
def insightElevated : String :=
  "⚠️ This segment shows elevated no-show risk. Consider targeted interventions like additional reminders or follow-ups."

/-- Insight text of the slightly-elevated branch (source line 1205). -/
def insightSlightly : String :=
  "This segment shows slightly elevated no-show risk compared to average."

/-- Insight text of the flagged significantly-better branch (source line 1207). -/
def insightSigBetter : String :=
  "✓ This segment performs significantly better than average. Study these characteristics to identify best practices."

/-- Insight text of the better-than-average branch (source line 1209). -/
def insightBetter : String := "This segment performs better than average."

/-- Insight text of the no-filters branch (source line 1181). -/
def insightNoFilters : String :=
  "Apply filters to identify specific segments with elevated or reduced no-show risk."

/-- Insight classification of currentViewSummary (source lines 1170-1213) as a
    function of the filtered and overall no-show rates; the branch chain of
    lines 1199-1210 runs only when at least one filter is active. -/
def currentViewInsight (fs : FilterSet) (filteredRate overallRate : ℚ) : String :=
  if activeFilterCount fs = 0 then insightNoFilters
  else
    let rateDiff := filteredRate - overallRate
    let absDiff := |rateDiff|
    if absDiff < 1 then insightSimilar
    else if rateDiff > 3 then insightElevated
    else if rateDiff > 0 then insightSlightly
    else if rateDiff < -3 then insightSigBetter
    else insightBetter

/-- Grouping key of the age tally (source line 1443): a truthy AgeGroup value
    coerced to the object-key string, 'Unknown' otherwise. -/
def ageKey (r : Row) : String :=
  match jsGet r "AgeGroup" with
  | some v => if jsTruthy v then jsToString v else "Unknown"
  | none => "Unknown"

/-- Aggregation bucket of the age/SMS/week tallies. -/
structure Bucket where
  name : String
  noShows : ℕ
  shows : ℕ
  total : ℕ
  rate : ℚ
deriving DecidableEq

/-- First-occurrence deduplication, fuel-structured (JS object keys appear in
    insertion order; the list length is always enough fuel). -/
def firstDedupAux : ℕ → List String → List String
  | 0, _ => []
  | _ + 1, [] => []
  | fuel + 1, a :: t => a :: firstDedupAux fuel (t.filter (fun x => x != a))

/-- First-occurrence deduplication of a key list. -/
def firstDedup (l : List String) : List String := firstDedupAux l.length l

/-- Tally bucket of a grouping key (the forEach loops of chartData): a record
    with NoShow === 1 counts as a no-show, anything else as a show; the rate
    is guarded by total > 0. -/
def tallyBucket (keyOf : Row → String) (rows : List Row) (k : String) : Bucket :=
  let ns := rows.countP (fun r => keyOf r == k && isNoShow1 r)
  let sh := rows.countP (fun r => keyOf r == k && !isNoShow1 r)
  let total := ns + sh
  ⟨k, ns, sh, total, if total > 0 then round1 ((ns : ℚ) / (total : ℚ) * 100) else 0⟩

/-- Leading integer of an age-group label (getNum, source lines 1434-1437):
    value of the leading digit run, 999 when there is none. -/
def leadingNum (s : String) : ℕ :=
  let ds := s.data.takeWhile isDigitC
  if ds.isEmpty then 999 else digitsVal ds

/-- Age-group comparator (sortAgeGroups, source lines 1431-1439) as a
    preorder: Unknown last, ascending leading integer. -/
def ageLE (a b : Bucket) : Bool :=
  b.name == "Unknown" || (a.name != "Unknown" && leadingNum a.name ≤ leadingNum b.name)

/-- Model of chartData.byAge (source lines 1441-1457), including the empty
    short-circuit of line 1427. -/
def chartDataByAge (rows : List Row) : List Bucket :=
  if rows.isEmpty then []
  else List.insertionSort (fun a b => ageLE a b = true)
    ((firstDedup (rows.map ageKey)).map (tallyBucket ageKey rows))

/-- SMS_received === '1' test (source line 1464). -/
def smsIsOne (r : Row) : Bool := jsGet r "SMS_received" == some (.str "1")

/-- Model of chartData.bySMS (source lines 1459-1477): the two fixed buckets
    'SMS Sent' (SMS_received === '1') and 'No SMS' (everything else). -/
def chartDataBySMS (rows : List Row) : List Bucket :=
  if rows.isEmpty then []
  else
    let mk : String → (Row → Bool) → Bucket := fun nm p =>
      let ns := rows.countP (fun r => p r && isNoShow1 r)
      let sh := rows.countP (fun r => p r && !isNoShow1 r)
      let total := ns + sh
      ⟨nm, ns, sh, total, if total > 0 then round1 ((ns : ℚ) / (total : ℚ) * 100) else 0⟩
    [mk "SMS Sent" smsIsOne, mk "No SMS" (fun r => !smsIsOne r)]

/-- Grouping key of the week tally (source line 1481). -/
def weekKey (r : Row) : String :=
  match jsGet r "Week" with
  | some v => if jsTruthy v then jsToString v else "Unknown"
  | none => "Unknown"

/-- Week comparator (source lines 1495-1499) as a preorder: Unknown last,
    ascending parsed date.  An unparseable label compares through NaN in the
    source, which leaves such pairs unordered; ordering among them is
    irrelevant to the properties proved here, which are permutation
    invariant. -/
def weekLE (a b : Bucket) : Bool :=
  b.name == "Unknown"
    || (a.name != "Unknown" && ((parseJSDate a.name).getD 0 ≤ (parseJSDate b.name).getD 0))

/-- Model of chartData.byWeek (source lines 1479-1499). -/
def chartDataByWeek (rows : List Row) : List Bucket :=
  if rows.isEmpty then []
  else List.insertionSort (fun a b => weekLE a b = true)
    ((firstDedup (rows.map weekKey)).map (tallyBucket weekKey rows))

/-- Waiting-days bin key (source lines 1513-1517). -/
def binKey (days : ℚ) : String :=
  if days = 0 then "0"
  else if days ≤ 3 then "1-3"
  else if days ≤ 7 then "4-7"
  else if days ≤ 14 then "8-14"
  else "15+"

/-- Waiting-time chart entry (name, No-Show Rate, n, noShows). -/
structure WBin where
  name : String
  rate : ℚ
  n : ℕ
  noShows : ℕ
deriving DecidableEq

/-- The five fixed waiting-time bin keys, in object insertion order. -/
def binKeys : List String := ["0", "1-3", "4-7", "8-14", "15+"]

/-- Bin membership: the row's resolved waiting days land in bin k (a record
    whose waiting days resolve to null is in no bin, source line 1511). -/
def inBin (k : String) (r : Row) : Bool :=
  match getWaitingDays r with
  | some d => binKey d == k
  | none => false

/-- Model of chartData.byWaitingDays (source lines 1501-1531), including the
    empty short-circuit of line 1427. -/
def chartDataByWaitingDays (rows : List Row) : List WBin :=
  if rows.isEmpty then []
  else
    binKeys.map (fun k =>
      let total := rows.countP (inBin k)
      let ns := rows.countP (fun r => inBin k r && isNoShow1 r)
      ⟨k ++ " days", if total > 0 then round1 ((ns : ℚ) / (total : ℚ) * 100) else 0,
        total, ns⟩)

/-- Waiting-days validity statistics. -/
structure WDStats where
  validCount : ℕ
  excludedCount : ℕ
deriving DecidableEq

/-- Model of waitingDaysStats (source lines 1263-1272). -/
def waitingDaysStats (rows : List Row) : WDStats :=
  if rows.isEmpty then ⟨0, 0⟩
  else
    let valid := rows.countP (fun r => (getWaitingDays r).isSome)
    ⟨valid, rows.length - valid⟩

/-- Waiting-days resolution in the precedence order the specification states:
    the waiting-days alias group (exact name, then normalized-header match)
    strictly before the awaiting-time/awaiting-days alias group.  Written for
    comparison with getWaitingDays, whose candidate list instead tries all
    three exact names before any normalized-header match. -/
def specPrecedenceWaitingDays (r : Row) : Option ℚ :=
  match firstParsed [jsGet r "WaitingDays", pickField r "waitingdays",
      jsGet r "AwaitingTime", jsGet r "AwaitingDays",
      pickField r "awaitingtime", pickField r "awaitingdays"] with
  | some n => some n
  | none => dateFallback r

/-- C3: filtering is a pure predicate conjunction — a record is in the output
    iff it is in the input and, for each of the three dimensions, the filter
    is "All" or the record's normalized field equals the filter value exactly;
    the all-"All" filter set returns the collection unchanged in order. -/
theorem c3_filter_pure_conjunction :
    (∀ (rows : List Row) (fs : FilterSet) (r : Row),
      r ∈ filteredData rows fs ↔ r ∈ rows
        ∧ (fs.ageGroup = "All" ∨ jsGet r "AgeGroup" = some (.str fs.ageGroup))
        ∧ (fs.smsReceived = "All" ∨ jsGet r "SMS_received" = some (.str fs.smsReceived))
        ∧ (fs.week = "All" ∨ jsGet r "Week" = some (.str fs.week)))
    ∧ (∀ rows : List Row, filteredData rows ⟨"All", "All", "All"⟩ = rows) := by
  constructor
  · intro rows fs r
    simp [filteredData, List.mem_filter, jsEqStr, and_assoc]
  · intro rows
    simp [filteredData, jsEqStr]

/-- C5: the division-by-zero guard of overallKpis covers only a null dataset,
    not a loaded empty one.  With csvData = [] (a header-only CSV), the code
    computes ((0 / 0) * 100).toFixed(1), which is NaN (modelled by none) —
    the spec says a zero-total rate is 0 and never a non-numeric value.  With
    csvData = null the truthiness guard applies and the rate is 0. -/
theorem c5_rate_nan_on_empty_dataset :
    overallKpisRate (some ([] : List Row)) = none
      ∧ overallKpisRate none = some 0 := by
  exact ⟨rfl, rfl⟩

/-- C8 counterexample: on the empty filtered collection the aggregation
    short-circuits to an empty list (source line 1427), not to the five fixed
    zero-total bins the claim requires. -/
theorem c8_counterexample : chartDataByWaitingDays ([] : List Row) = [] := rfl

/-- C9: whenever at least one filter is active, the baseline-comparison
    insight classifies d = filteredRate - overallRate by the ordered branch
    chain |d| < 1 similar, d > 3 elevated (flagged), d > 0 slightly elevated,
    d < -3 significantly better (flagged), else better than average; in
    particular d = 3 classifies as slightly elevated. -/
theorem c9_baseline_classification :
    (∀ (fs : FilterSet) (fr ov : ℚ), 0 < activeFilterCount fs →
      (|fr - ov| < 1 → currentViewInsight fs fr ov = insightSimilar)
      ∧ (1 ≤ |fr - ov| → 3 < fr - ov → currentViewInsight fs fr ov = insightElevated)
      ∧ (1 ≤ |fr - ov| → fr - ov ≤ 3 → 0 < fr - ov →
          currentViewInsight fs fr ov = insightSlightly)
      ∧ (1 ≤ |fr - ov| → fr - ov ≤ 0 → fr - ov < -3 →
          currentViewInsight fs fr ov = insightSigBetter)
      ∧ (1 ≤ |fr - ov| → fr - ov ≤ 0 → -3 ≤ fr - ov →
          currentViewInsight fs fr ov = insightBetter))
    ∧ (∀ (fs : FilterSet) (fr ov : ℚ), 0 < activeFilterCount fs → fr - ov = 3 →
        currentViewInsight fs fr ov = insightSlightly) := by
  have main : ∀ (fs : FilterSet) (fr ov : ℚ), 0 < activeFilterCount fs →
      (|fr - ov| < 1 → currentViewInsight fs fr ov = insightSimilar)
      ∧ (1 ≤ |fr - ov| → 3 < fr - ov → currentViewInsight fs fr ov = insightElevated)
      ∧ (1 ≤ |fr - ov| → fr - ov ≤ 3 → 0 < fr - ov →
          currentViewInsight fs fr ov = insightSlightly)
      ∧ (1 ≤ |fr - ov| → fr - ov ≤ 0 → fr - ov < -3 →
          currentViewInsight fs fr ov = insightSigBetter)
      ∧ (1 ≤ |fr - ov| → fr - ov ≤ 0 → -3 ≤ fr - ov →
          currentViewInsight fs fr ov = insightBetter) := by
    intro fs fr ov hfs
    have hne : ¬ activeFilterCount fs = 0 := Nat.pos_iff_ne_zero.mp hfs
    unfold currentViewInsight
    simp only [hne, if_false]
    refine ⟨?_, ?_, ?_, ?_, ?_⟩ <;> intros <;> split_ifs <;>
      first | rfl | (exfalso; linarith)
  refine ⟨main, ?_⟩
  intro fs fr ov hfs h3
  exact (main fs fr ov hfs).2.2.1 (by rw [h3]; norm_num) (by rw [h3]) (by rw [h3]; norm_num)

/-- C9 witness: with the age-group filter active and rates 10 and 7 the
    difference is exactly 3 and the insight is the slightly-elevated one. -/
theorem c9_witness :
    currentViewInsight ⟨"20-29", "All", "All"⟩ 10 7 = insightSlightly :=
  c9_baseline_classification.2 ⟨"20-29", "All", "All"⟩ 10 7 (by decide) (by norm_num)

section CountLemmas

variable {α : Type}

lemma sum_map_add (f g : α → ℕ) (l : List α) :
    (l.map (fun a => f a + g a)).sum = (l.map f).sum + (l.map g).sum := by
  induction l with
  | nil => rfl
  | cons a t ih => simp [ih]; omega

lemma countP_and_not (p q : α → Bool) (l : List α) :
    l.countP (fun a => p a && q a) + l.countP (fun a => p a && !q a) = l.countP p := by
  induction l with
  | nil => rfl
  | cons a t ih =>
    simp only [List.countP_cons]
    cases hp : p a <;> cases hq : q a <;> simp [hp, hq] <;> omega

lemma countP_add_countP_not (p : α → Bool) (l : List α) :
    l.countP p + l.countP (fun a => !p a) = l.length := by
  induction l with
  | nil => rfl
  | cons a t ih =>
    simp only [List.countP_cons, List.length_cons]
    cases hp : p a <;> simp [hp] <;> omega

end CountLemmas

lemma mem_firstDedupAux : ∀ (fuel : ℕ) (l : List String) (x : String),
    x ∈ firstDedupAux fuel l → x ∈ l := by
  intro fuel
  induction fuel with
  | zero => intro l x h; simp [firstDedupAux] at h
  | succ n ih =>
    intro l x h
    cases l with
    | nil => simp [firstDedupAux] at h
    | cons a t =>
      simp only [firstDedupAux, List.mem_cons] at h
      rcases h with h | h
      · exact h ▸ List.mem_cons_self a t
      · exact List.mem_cons_of_mem a (List.mem_of_mem_filter (ih _ x h))

lemma sum_count_firstDedupAux : ∀ (fuel : ℕ) (l : List String), l.length ≤ fuel →
    ((firstDedupAux fuel l).map (fun k => l.countP (fun x => x == k))).sum = l.length := by
  intro fuel
  induction fuel with
  | zero =>
    intro l h
    have : l = [] := List.length_eq_zero.mp (Nat.le_zero.mp h)
    subst this; rfl
  | succ n ih =>
    intro l h
    cases l with
    | nil => rfl
    | cons a t =>
      have hlen : t.length ≤ n := Nat.succ_le_succ_iff.mp h
      have hlen' : (t.filter (fun x => x != a)).length ≤ n :=
        le_trans (List.length_filter_le _ t) hlen
      simp only [firstDedupAux, List.map_cons, List.sum_cons]
      have hmapeq :
          (firstDedupAux n (t.filter (fun x => x != a))).map
              (fun k => (a :: t).countP (fun x => x == k))
            = (firstDedupAux n (t.filter (fun x => x != a))).map
              (fun k => (t.filter (fun x => x != a)).countP (fun x => x == k)) := by
        apply List.map_congr_left
        intro k hk
        have hkmem : k ∈ t.filter (fun x => x != a) := mem_firstDedupAux _ _ _ hk
        have hkne : k ≠ a := by
          have := List.of_mem_filter hkmem
          simpa [bne_iff_ne] using this
        have h1 : (a :: t).countP (fun x => x == k) = t.countP (fun x => x == k) := by
          simp [List.countP_cons, beq_iff_eq, Ne.symm hkne]
        have h2 : (t.filter (fun x => x != a)).countP (fun x => x == k)
            = t.countP (fun x => x == k) := by
          rw [List.countP_filter]
          apply List.countP_congr
          intro x _
          cases hx : x == k
          · simp [hx]
          · have : x = k := by simpa using hx
            subst this
            simp [bne_iff_ne, hkne]
        rw [h1, h2]
      rw [hmapeq, ih _ hlen']
      have hsplit : t.countP (fun x => x == a)
          + (t.filter (fun x => x != a)).length = t.length := by
        rw [← List.countP_eq_length_filter]
        have : (fun x => x != a) = (fun x => !(x == a)) := by
          funext x; simp [bne]
        rw [this]
        exact countP_add_countP_not _ t
      simp only [List.countP_cons, beq_self_eq_true, if_true, List.length_cons]
      omega

/-- Total of a tally bucket: the number of records carrying its key. -/
lemma tallyBucket_total (keyOf : Row → String) (rows : List Row) (k : String) :
    (tallyBucket keyOf rows k).total = rows.countP (fun r => keyOf r == k) :=
  countP_and_not _ _ rows

lemma sum_totals_over_keys (keyOf : Row → String) (rows : List Row) :
    (((firstDedup (rows.map keyOf)).map (tallyBucket keyOf rows)).map Bucket.total).sum
      = rows.length := by
  rw [List.map_map]
  have hcong : (firstDedup (rows.map keyOf)).map (Bucket.total ∘ tallyBucket keyOf rows)
      = (firstDedup (rows.map keyOf)).map
          (fun k => (rows.map keyOf).countP (fun x => x == k)) := by
    apply List.map_congr_left
    intro k _
    show (tallyBucket keyOf rows k).total = _
    rw [tallyBucket_total, List.countP_map]
    rfl
  rw [hcong]
  have := sum_count_firstDedupAux (rows.map keyOf).length (rows.map keyOf) le_rfl
  simpa [firstDedup] using this

lemma sorted_buckets_total_sum (le : Bucket → Bucket → Bool) (l : List Bucket) :
    ((List.insertionSort (fun a b => le a b = true) l).map Bucket.total).sum
      = (l.map Bucket.total).sum :=
  ((List.perm_insertionSort _ l).map Bucket.total).sum_eq

lemma binKey_cases (d : ℚ) : binKey d = "0" ∨ binKey d = "1-3" ∨ binKey d = "4-7"
    ∨ binKey d = "8-14" ∨ binKey d = "15+" := by
  unfold binKey
  split_ifs <;> simp

lemma sum_bins_one (r : Row) :
    (binKeys.map (fun k => if inBin k r then (1 : ℕ) else 0)).sum
      = if (getWaitingDays r).isSome then 1 else 0 := by
  cases h : getWaitingDays r with
  | none => simp [inBin, binKeys, h]
  | some d =>
    simp only [inBin, h, Option.isSome_some, if_true]
    rcases binKey_cases d with hb | hb | hb | hb | hb <;> rw [hb] <;> decide

lemma sum_countP_bins (rows : List Row) :
    (binKeys.map (fun k => rows.countP (inBin k))).sum
      = rows.countP (fun r => (getWaitingDays r).isSome) := by
  induction rows with
  | nil => rfl
  | cons r t ih =>
    simp only [List.countP_cons]
    rw [sum_map_add (fun k => t.countP (inBin k)) (fun k => if inBin k r then 1 else 0),
      ih, sum_bins_one]

/-- C6: each of the three partitioning aggregations (age group, SMS status,
    week) assigns every filtered record to exactly one bucket, so bucket
    totals sum to the collection size; waiting-time bins do not partition —
    a single record with unresolved waiting days already breaks the sum. -/
theorem c6_partition_bucket_sums :
    (∀ rows : List Row, ((chartDataByAge rows).map Bucket.total).sum = rows.length)
    ∧ (∀ rows : List Row, ((chartDataBySMS rows).map Bucket.total).sum = rows.length)
    ∧ (∀ rows : List Row, ((chartDataByWeek rows).map Bucket.total).sum = rows.length)
    ∧ (∃ rows : List Row,
        ((chartDataByWaitingDays rows).map WBin.n).sum ≠ rows.length) := by
  refine ⟨?_, ?_, ?_, ?_⟩
  · intro rows
    by_cases hr : rows.isEmpty
    · rw [List.isEmpty_iff] at hr
      subst hr; rfl
    · simp only [chartDataByAge, hr, Bool.false_eq_true, if_false]
      rw [sorted_buckets_total_sum, sum_totals_over_keys]
  · intro rows
    by_cases hr : rows.isEmpty
    · rw [List.isEmpty_iff] at hr
      subst hr; rfl
    · simp only [chartDataBySMS, hr, Bool.false_eq_true, if_false]
      have h1 := countP_and_not smsIsOne isNoShow1 rows
      have h2 := countP_and_not (fun r => !smsIsOne r) isNoShow1 rows
      have h3 := countP_add_countP_not smsIsOne rows
      simp only [List.map_cons, List.map_nil, List.sum_cons, List.sum_nil]
      omega
  · intro rows
    by_cases hr : rows.isEmpty
    · rw [List.isEmpty_iff] at hr
      subst hr; rfl
    · simp only [chartDataByWeek, hr, Bool.false_eq_true, if_false]
      rw [sorted_buckets_total_sum, sum_totals_over_keys]
  · refine ⟨[[("NoShow", JSVal.null)]], ?_⟩
    decide

/-- C8 (amended): for every non-empty filtered collection the waiting-time
    aggregation emits exactly the five fixed bins in fixed order, each present
    even at total 0; bin membership counts exactly the records with resolved
    waiting days, and excludedCount = total - validCount always holds; the
    empty collection instead short-circuits to an empty list. -/
theorem c8_bins_amended :
    (∀ rows : List Row, rows ≠ [] →
      (chartDataByWaitingDays rows).map WBin.name
        = ["0 days", "1-3 days", "4-7 days", "8-14 days", "15+ days"])
    ∧ (∀ rows : List Row,
        (waitingDaysStats rows).excludedCount
          = rows.length - (waitingDaysStats rows).validCount)
    ∧ (∀ rows : List Row, rows ≠ [] →
        ((chartDataByWaitingDays rows).map WBin.n).sum
          = (waitingDaysStats rows).validCount)
    ∧ chartDataByWaitingDays ([] : List Row) = [] := by
  refine ⟨?_, ?_, ?_, rfl⟩
  · intro rows hne
    have hr : rows.isEmpty = false := by
      cases rows with
      | nil => exact absurd rfl hne
      | cons a t => rfl
    simp only [chartDataByWaitingDays, hr, Bool.false_eq_true, if_false, List.map_map]
    rfl
  · intro rows
    by_cases hr : rows.isEmpty
    · rw [List.isEmpty_iff] at hr
      subst hr; rfl
    · simp only [waitingDaysStats, hr, Bool.false_eq_true, if_false]
  · intro rows hne
    have hr : rows.isEmpty = false := by
      cases rows with
      | nil => exact absurd rfl hne
      | cons a t => rfl
    simp only [chartDataByWaitingDays, waitingDaysStats, hr, Bool.false_eq_true, if_false,
      List.map_map]
    have : (WBin.n ∘ fun k =>
        WBin.mk (k ++ " days")
          (if rows.countP (inBin k) > 0 then
            round1 ((rows.countP (fun r => inBin k r && isNoShow1 r) : ℚ)
              / (rows.countP (inBin k) : ℚ) * 100) else 0)
          (rows.countP (inBin k)) (rows.countP (fun r => inBin k r && isNoShow1 r)))
        = fun k => rows.countP (inBin k) := rfl
    rw [this, sum_countP_bins]

/-- C8 witness: a one-record collection with unresolved waiting days gets all
    five bins at total 0 and an exclusion count of 1. -/
theorem c8_witness :
    (chartDataByWaitingDays [[("NoShow", JSVal.null)]]).map WBin.name
        = ["0 days", "1-3 days", "4-7 days", "8-14 days", "15+ days"]
      ∧ (waitingDaysStats [[("NoShow", JSVal.null)]]).excludedCount
        = ([[("NoShow", JSVal.null)]] : List Row).length
          - (waitingDaysStats [[("NoShow", JSVal.null)]]).validCount :=
  ⟨c8_bins_amended.1 [[("NoShow", JSVal.null)]] (by decide),
   c8_bins_amended.2.1 [[("NoShow", JSVal.null)]]⟩

/-- C4 counterexample: a one-record collection whose NoShow is unresolved
    (null).  The claim says such a record is counted neither as a no-show nor
    as a show, but the KPI show count (the complement total - noShows) and the
    age tally's else branch both count it as a show. -/
theorem c4_counterexample :
    jsGet [("NoShow", JSVal.null)] "NoShow" = some JSVal.null
      ∧ toNum JSVal.null = none
      ∧ (kpis [[("NoShow", JSVal.null)]]).noShows = 0
      ∧ (kpis [[("NoShow", JSVal.null)]]).shows = 1
      ∧ (chartDataByAge [[("NoShow", JSVal.null)]]).map Bucket.shows = [1] := by
  decide

/-- C4 (amended): a record with unresolved NoShow is never counted as a
    no-show — the no-show tallies count exactly the records with NoShow === 1
    — but it is counted as a show (complement in the KPIs, else branch in the
    bucket tallies) and in every total. -/
theorem c4_unresolved_never_noshow :
    (∀ rows : List Row,
      (kpis rows).total = rows.length
      ∧ (kpis rows).noShows = rows.countP isNoShow1
      ∧ (kpis rows).noShows + (kpis rows).shows = rows.length)
    ∧ (∀ (rows : List Row) (b : Bucket), b ∈ chartDataByAge rows →
        b.noShows = rows.countP (fun r => ageKey r == b.name && isNoShow1 r)
        ∧ b.shows = rows.countP (fun r => ageKey r == b.name && !isNoShow1 r)) := by
  constructor
  · intro rows
    by_cases hr : rows.isEmpty
    · rw [List.isEmpty_iff] at hr
      subst hr
      exact ⟨rfl, rfl, rfl⟩
    · have hle := List.countP_le_length isNoShow1 (l := rows)
      simp only [kpis, hr, Bool.false_eq_true, if_false]
      refine ⟨?_, ?_, ?_⟩ <;> first | trivial | omega
  · intro rows b hb
    by_cases hr : rows.isEmpty
    · rw [List.isEmpty_iff] at hr
      subst hr
      simp [chartDataByAge] at hb
    · simp only [chartDataByAge, hr, Bool.false_eq_true, if_false] at hb
      rw [(List.perm_insertionSort _ _).mem_iff] at hb
      rcases List.mem_map.mp hb with ⟨k, _, hk⟩
      subst hk
      exact ⟨rfl, rfl⟩

/-- C4 witness: the amended statement applied to the unresolved one-record
    collection and its single Unknown age bucket. -/
theorem c4_witness :
    (kpis [[("NoShow", JSVal.null)]]).noShows + (kpis [[("NoShow", JSVal.null)]]).shows
        = ([[("NoShow", JSVal.null)]] : List Row).length
      ∧ (tallyBucket ageKey [[("NoShow", JSVal.null)]] "Unknown").shows
        = ([[("NoShow", JSVal.null)]] : List Row).countP
            (fun r => ageKey r == (tallyBucket ageKey [[("NoShow", JSVal.null)]] "Unknown").name
              && !isNoShow1 r) :=
  ⟨(c4_unresolved_never_noshow.1 [[("NoShow", JSVal.null)]]).2.2,
   (c4_unresolved_never_noshow.2 [[("NoShow", JSVal.null)]]
      (tallyBucket ageKey [[("NoShow", JSVal.null)]] "Unknown")
      (by
        have h : chartDataByAge [[("NoShow", JSVal.null)]]
            = [tallyBucket ageKey [[("NoShow", JSVal.null)]] "Unknown"] := rfl
        rw [h]
        exact List.mem_singleton.mpr rfl)).2⟩

/-- C2 counterexample: an explicit WaitingDays field parsing to -0.5 is
    returned as is — the resolved value is negative and fractional, because
    the clamp and the floor exist only on the date-difference fallback path. -/
theorem c2_counterexample :
    getWaitingDays [("WaitingDays", JSVal.str "-0.5")] = some (Rat.divInt (-1) 2)
      ∧ Rat.divInt (-1) 2 < 0
      ∧ (Rat.divInt (-1) 2).den ≠ 1 := by
  refine ⟨by decide, by decide, by decide⟩

/-- C2 (amended): the resolved waiting-days value is null or a number; when it
    comes from the date-difference fallback (no explicit candidate parsed) it
    is a non-negative integer, but a value from an explicit aliased field is
    returned exactly as parsed, without clamping or truncation. -/
theorem c2_waitingdays_range :
    (∀ r : Row, firstParsed (explicitCandidates r) = none →
      getWaitingDays r = none ∨ ∃ z : ℤ, 0 ≤ z ∧ getWaitingDays r = some (z : ℚ))
    ∧ (∀ (r : Row) (q : ℚ), firstParsed (explicitCandidates r) = some q →
        getWaitingDays r = some q) := by
  constructor
  · intro r h
    unfold getWaitingDays
    rw [h]
    rw [show dateFallback r =
        (match toDateModel (firstTruthy [jsGet r "ScheduledDay", jsGet r "ScheduledDate",
            jsGet r "Scheduled", jsGet r "Scheduled_Day", pickField r "scheduledday"]),
          toDateModel (firstTruthy [jsGet r "AppointmentDay", jsGet r "AppointmentDate",
            jsGet r "Appointment", jsGet r "Appointment_Day", pickField r "appointmentday"]) with
        | some scheduled, some appt =>
            some (((if Int.fdiv (appt - scheduled) 86400000 < 0 then 0
              else Int.fdiv (appt - scheduled) 86400000) : ℤ) : ℚ)
        | _, _ => none) from rfl]
    cases h1 : toDateModel (firstTruthy [jsGet r "ScheduledDay", jsGet r "ScheduledDate",
        jsGet r "Scheduled", jsGet r "Scheduled_Day", pickField r "scheduledday"]) with
    | none => left; rfl
    | some scheduled =>
      cases h2 : toDateModel (firstTruthy [jsGet r "AppointmentDay", jsGet r "AppointmentDate",
          jsGet r "Appointment", jsGet r "Appointment_Day", pickField r "appointmentday"]) with
      | none => left; rfl
      | some appt =>
        right
        refine ⟨if Int.fdiv (appt - scheduled) 86400000 < 0 then 0
          else Int.fdiv (appt - scheduled) 86400000, ?_, rfl⟩
        split_ifs with hd
        · exact le_refl 0
        · omega
  · intro r q h
    unfold getWaitingDays
    rw [h]

/-- C2 witness: a record resolving through the date fallback (scheduled ten
    days before the appointment) yields the amended non-negative-integer
    conclusion. -/
theorem c2_witness :
    getWaitingDays [("ScheduledDay", JSVal.str "2016-04-19"),
        ("AppointmentDay", JSVal.str "2016-04-29")] = none
      ∨ ∃ z : ℤ, 0 ≤ z
        ∧ getWaitingDays [("ScheduledDay", JSVal.str "2016-04-19"),
            ("AppointmentDay", JSVal.str "2016-04-29")] = some (z : ℚ) :=
  c2_waitingdays_range.1 _ (by decide)

/-- C1 counterexample: a row whose headers are AwaitingTime (exact name,
    value 3) and "waiting days" (normalized-header match only, value 7).  The
    claimed precedence — the waiting-days alias group before the
    awaiting-time group, each tried exact-then-normalized — would resolve 7,
    but the code tries all exact names before any normalized-header match and
    resolves 3. -/
theorem c1_counterexample :
    getWaitingDays [("AwaitingTime", JSVal.str "3"), ("waiting days", JSVal.str "7")]
        = some 3
      ∧ specPrecedenceWaitingDays [("AwaitingTime", JSVal.str "3"),
          ("waiting days", JSVal.str "7")] = some 7 := by
  refine ⟨by decide, by decide⟩

/-- C1 (amended): waiting-days resolution tries, in order, the exact field
    names WaitingDays, AwaitingTime, AwaitingDays and then the
    normalized-header matches waitingdays, awaitingtime, awaitingdays (the
    explicitCandidates list); the first candidate parsing to a non-null
    number wins, the date-difference fallback runs only when every explicit
    candidate fails, and the result is null exactly when no candidate and no
    date pair resolves.  A record with explicit WaitingDays 5 and date fields
    implying 10 days resolves to 5. -/
theorem c1_precedence :
    (∀ (v : JSVal) (q : ℚ) (rest : List (Option JSVal)), toNum v = some q →
      firstParsed (some v :: rest) = some q)
    ∧ (∀ (v : JSVal) (rest : List (Option JSVal)), toNum v = none →
        firstParsed (some v :: rest) = firstParsed rest)
    ∧ (∀ rest : List (Option JSVal), firstParsed (none :: rest) = firstParsed rest)
    ∧ (∀ (r : Row) (q : ℚ), firstParsed (explicitCandidates r) = some q →
        getWaitingDays r = some q)
    ∧ (∀ r : Row, firstParsed (explicitCandidates r) = none →
        getWaitingDays r = dateFallback r)
    ∧ (∀ r : Row, getWaitingDays r = none ↔
        firstParsed (explicitCandidates r) = none ∧ dateFallback r = none)
    ∧ dateFallback [("WaitingDays", JSVal.str "5"), ("ScheduledDay", JSVal.str "2016-04-19"),
        ("AppointmentDay", JSVal.str "2016-04-29")] = some 10
    ∧ getWaitingDays [("WaitingDays", JSVal.str "5"), ("ScheduledDay", JSVal.str "2016-04-19"),
        ("AppointmentDay", JSVal.str "2016-04-29")] = some 5 := by
  refine ⟨?_, ?_, ?_, ?_, ?_, ?_, by decide, by decide⟩
  · intro v q rest h
    simp [firstParsed, h]
  · intro v rest h
    simp [firstParsed, h]
  · intro rest
    simp [firstParsed]
  · intro r q h
    unfold getWaitingDays
    rw [h]
  · intro r h
    unfold getWaitingDays
    rw [h]
  · intro r
    unfold getWaitingDays
    cases h : firstParsed (explicitCandidates r) with
    | none => simp [h]
    | some q => simp [h]

/-- C1 witness: the top exact-name candidate wins as soon as it parses. -/
theorem c1_witness :
    getWaitingDays [("AwaitingDays", JSVal.str "4")] = some 4 :=
  c1_precedence.2.2.2.1 [("AwaitingDays", JSVal.str "4")] 4 (by decide)

lemma resolveWeek_eq (r : Row) :
    resolveWeek r =
      if weekNeedsDerive (jsGet r "Week") then
        match firstTruthy [jsGet r "AppointmentDay", jsGet r "Appointment",
            jsGet r "AppointmentDate"] with
        | some a =>
            match jsNewDateMs a with
            | some t => .str (mondayLabel t)
            | none => .str "Unknown"
        | none => .str "Unknown"
      else (jsGet r "Week").getD .null := rfl

lemma resolveWeek_of_parse (r : Row) (a : JSVal) (t : ℤ)
    (hneeds : weekNeedsDerive (jsGet r "Week") = true)
    (hchain : firstTruthy [jsGet r "AppointmentDay", jsGet r "Appointment",
      jsGet r "AppointmentDate"] = some a)
    (ht : jsNewDateMs a = some t) :
    resolveWeek r = .str (mondayLabel t) := by
  rw [resolveWeek_eq, hneeds, if_pos rfl]
  simp only [hchain, ht]

lemma resolveWeek_of_no_appt (r : Row)
    (hneeds : weekNeedsDerive (jsGet r "Week") = true)
    (hchain : firstTruthy [jsGet r "AppointmentDay", jsGet r "Appointment",
      jsGet r "AppointmentDate"] = none) :
    resolveWeek r = .str "Unknown" := by
  rw [resolveWeek_eq, hneeds, if_pos rfl]
  simp only [hchain]

lemma resolveWeek_of_bad_date (r : Row) (a : JSVal)
    (hneeds : weekNeedsDerive (jsGet r "Week") = true)
    (hchain : firstTruthy [jsGet r "AppointmentDay", jsGet r "Appointment",
      jsGet r "AppointmentDate"] = some a)
    (ht : jsNewDateMs a = none) :
    resolveWeek r = .str "Unknown" := by
  rw [resolveWeek_eq, hneeds, if_pos rfl]
  simp only [hchain, ht]

lemma formatCivil_isEmpty_false (c : ℤ × ℕ × ℕ) : (formatCivil c).isEmpty = false := by
  cases he : (formatCivil c).isEmpty
  · rfl
  · exfalso
    have hs : formatCivil c = "" := (String.isEmpty_iff _).mp he
    have hdata := congrArg String.data hs
    have hd : (formatCivil c).data
        = ((((intToStr c.1).data ++ ['-']) ++ (pad2 c.2.1).data) ++ ['-'])
            ++ (pad2 c.2.2).data := rfl
    rw [hd] at hdata
    simp at hdata

lemma mondayLabel_isEmpty_false (t : ℤ) : (mondayLabel t).isEmpty = false :=
  formatCivil_isEmpty_false _

/-- C7: week resolution keeps a present, truthy, non-blank, non-'unknown'
    label unchanged; otherwise it derives from the appointment timestamp the
    label of a Monday (day-of-week 1) at most six days on or before the
    appointment day, formatted as the civil date string; when the appointment
    value is absent or unparseable the label is 'Unknown'.  The resolved value
    is always truthy (set and non-empty), and the Wednesday appointment
    2016-04-27 yields that week's Monday 2016-04-25. -/
theorem c7_week_resolution :
    (∀ (r : Row) (v : JSVal), jsGet r "Week" = some v → jsTruthy v = true →
      (trimStr (jsToString v)).isEmpty = false → lowerStr (jsToString v) ≠ "unknown" →
      resolveWeek r = v)
    ∧ (∀ (r : Row) (a : JSVal) (t : ℤ), weekNeedsDerive (jsGet r "Week") = true →
        firstTruthy [jsGet r "AppointmentDay", jsGet r "Appointment",
          jsGet r "AppointmentDate"] = some a →
        jsNewDateMs a = some t →
        ∃ md : ℤ, dayOfWeek md = 1 ∧ md ≤ Int.fdiv t 86400000
          ∧ Int.fdiv t 86400000 < md + 7
          ∧ resolveWeek r = .str (formatCivil (civilFromDays md)))
    ∧ (∀ r : Row, weekNeedsDerive (jsGet r "Week") = true →
        firstTruthy [jsGet r "AppointmentDay", jsGet r "Appointment",
          jsGet r "AppointmentDate"] = none →
        resolveWeek r = .str "Unknown")
    ∧ (∀ (r : Row) (a : JSVal), weekNeedsDerive (jsGet r "Week") = true →
        firstTruthy [jsGet r "AppointmentDay", jsGet r "Appointment",
          jsGet r "AppointmentDate"] = some a →
        jsNewDateMs a = none →
        resolveWeek r = .str "Unknown")
    ∧ (∀ r : Row, jsTruthy (resolveWeek r) = true)
    ∧ resolveWeek [("AppointmentDay", JSVal.str "2016-04-27")] = .str "2016-04-25" := by
  refine ⟨?_, ?_, resolveWeek_of_no_appt, resolveWeek_of_bad_date, ?_, by decide⟩
  · intro r v hget htr hblank hunk
    have hw : weekNeedsDerive (jsGet r "Week") = false := by
      rw [hget]
      simp [weekNeedsDerive, htr, hblank, hunk]
    rw [resolveWeek_eq, hw]
    simp [hget]
  · intro r a t hneeds hchain ht
    refine ⟨Int.fdiv t 86400000 +
      (if dayOfWeek (Int.fdiv t 86400000) = 0 then -6
        else 1 - dayOfWeek (Int.fdiv t 86400000)), ?_, ?_, ?_,
      resolveWeek_of_parse r a t hneeds hchain ht⟩
    · generalize Int.fdiv t 86400000 = n
      unfold dayOfWeek
      split_ifs with h0
      · unfold dayOfWeek at h0
        have h1 : n + -6 + 4 = n + 4 - 6 := by ring
        rw [h1, Int.sub_emod, h0]
        decide
      · unfold dayOfWeek at h0
        have hdm := Int.ediv_add_emod (n + 4) 7
        have h1 : n + (1 - (n + 4) % 7) + 4 = 1 + 7 * ((n + 4) / 7) := by omega
        rw [h1, Int.add_mul_emod_self_left]
        decide
    · generalize Int.fdiv t 86400000 = n
      unfold dayOfWeek
      split_ifs with h0
      · omega
      · omega
    · generalize Int.fdiv t 86400000 = n
      unfold dayOfWeek
      split_ifs with h0
      · omega
      · omega
  · intro r
    cases hw : weekNeedsDerive (jsGet r "Week") with
    | true =>
      cases hchain : firstTruthy [jsGet r "AppointmentDay", jsGet r "Appointment",
          jsGet r "AppointmentDate"] with
      | none => rw [resolveWeek_of_no_appt r hw hchain]; rfl
      | some a =>
        cases ht : jsNewDateMs a with
        | none => rw [resolveWeek_of_bad_date r a hw hchain ht]; rfl
        | some t =>
          rw [resolveWeek_of_parse r a t hw hchain ht]
          show (!(mondayLabel t).isEmpty) = true
          rw [mondayLabel_isEmpty_false]
          rfl
    | false =>
      rw [resolveWeek_eq, hw]
      simp only [Bool.false_eq_true, if_false]
      cases hget : jsGet r "Week" with
      | none => rw [hget] at hw; simp [weekNeedsDerive] at hw
      | some v =>
        rw [hget] at hw
        simp only [weekNeedsDerive, Bool.or_eq_false_iff, Bool.not_eq_false'] at hw
        exact hw.1.1

/-- C7 witness: a usable existing label is kept, and the Wednesday appointment
    2016-04-27 derives a Monday label through the existential clause. -/
theorem c7_witness :
    resolveWeek [("Week", JSVal.str "2016-05-02")] = JSVal.str "2016-05-02"
      ∧ ∃ md : ℤ, dayOfWeek md = 1
        ∧ md ≤ Int.fdiv (16918 * 86400000) 86400000
        ∧ Int.fdiv (16918 * 86400000) 86400000 < md + 7
        ∧ resolveWeek [("AppointmentDay", JSVal.str "2016-04-27")]
          = JSVal.str (formatCivil (civilFromDays md)) :=
  ⟨c7_week_resolution.1 [("Week", JSVal.str "2016-05-02")] (JSVal.str "2016-05-02")
      (by decide) (by decide) (by decide) (by decide),
   c7_week_resolution.2.1 [("AppointmentDay", JSVal.str "2016-04-27")]
      (JSVal.str "2016-04-27") (16918 * 86400000) (by decide) (by decide) (by decide)⟩

lemma dropWhile_idem (p : Char → Bool) (l : List Char) :
    List.dropWhile p (List.dropWhile p l) = List.dropWhile p l := by
  induction l with
  | nil => rfl
  | cons a t ih =>
    by_cases h : p a
    · simp only [List.dropWhile_cons, h, if_true]
      exact ih
    · simp [List.dropWhile_cons, h]

lemma head?_dropWhile_false (p : Char → Bool) (l : List Char) (c : Char)
    (h : (List.dropWhile p l).head? = some c) : p c = false := by
  induction l with
  | nil => simp at h
  | cons a t ih =>
    by_cases hp : p a
    · rw [List.dropWhile_cons, if_pos hp] at h
      exact ih h
    · rw [List.dropWhile_cons, if_neg hp] at h
      simp only [List.head?_cons, Option.some.injEq] at h
      subst h
      cases hpa : p a
      · rfl
      · exact absurd hpa hp

lemma dropWhile_eq_self_of_all (p : Char → Bool) (l : List Char)
    (h : ∀ c ∈ l, p c = false) : List.dropWhile p l = l := by
  cases l with
  | nil => rfl
  | cons a t => simp [List.dropWhile_cons, h a (List.mem_cons_self a t)]

lemma trimList_of_no_ws (l : List Char) (h : ∀ c ∈ l, isWSChar c = false) :
    trimList l = l := by
  unfold trimList
  rw [dropWhile_eq_self_of_all isWSChar l h,
    dropWhile_eq_self_of_all isWSChar l.reverse (fun c hc => h c (List.mem_reverse.mp hc)),
    List.reverse_reverse]

lemma trimList_idem (l : List Char) : trimList (trimList l) = trimList l := by
  show trimList (((l.dropWhile isWSChar).reverse.dropWhile isWSChar).reverse)
    = ((l.dropWhile isWSChar).reverse.dropWhile isWSChar).reverse
  have h1 : ((l.dropWhile isWSChar).reverse.dropWhile isWSChar).reverse.dropWhile isWSChar
      = ((l.dropWhile isWSChar).reverse.dropWhile isWSChar).reverse := by
    cases hc : ((l.dropWhile isWSChar).reverse.dropWhile isWSChar).reverse with
    | nil => rfl
    | cons c t =>
      have hsplit : (l.dropWhile isWSChar).reverse
          = (l.dropWhile isWSChar).reverse.takeWhile isWSChar
            ++ (l.dropWhile isWSChar).reverse.dropWhile isWSChar :=
        (List.takeWhile_append_dropWhile isWSChar (l.dropWhile isWSChar).reverse).symm
      have hrev := congrArg List.reverse hsplit
      rw [List.reverse_reverse, List.reverse_append] at hrev
      have hh : (l.dropWhile isWSChar).head? = some c := by
        rw [hrev, hc]
        rfl
      have hpc : isWSChar c = false := head?_dropWhile_false isWSChar l c hh
      simp [List.dropWhile_cons, hpc]
  unfold trimList
  rw [h1, List.reverse_reverse, dropWhile_idem]

lemma trimStr_trimStr (s : String) : trimStr (trimStr s) = trimStr s := by
  show String.mk (trimList (String.mk (trimList s.data)).data) = String.mk (trimList s.data)
  rw [show (String.mk (trimList s.data)).data = trimList s.data from rfl, trimList_idem]

lemma trimStr_of_no_ws (s : String) (h : ∀ c ∈ s.data, isWSChar c = false) :
    trimStr s = s := by
  show String.mk (trimList s.data) = s
  rw [trimList_of_no_ws s.data h]

lemma jsGet_nil (k : String) : jsGet [] k = none := rfl

lemma jsGet_cons (a : String × JSVal) (t : Row) (k : String) :
    jsGet (a :: t) k = if a.1 == k then some a.2 else jsGet t k := by
  simp only [jsGet, List.find?]
  cases h : a.1 == k
  · rfl
  · rfl

lemma jsGet_setField_self (k : String) (v : JSVal) (r : Row) :
    jsGet (setField k v r) k = some v := by
  induction r with
  | nil =>
    show jsGet [(k, v)] k = some v
    rw [jsGet_cons]
    simp
  | cons a t ih =>
    by_cases h : a.1 = k
    · obtain ⟨k1, v1⟩ := a
      simp only at h
      simp only [setField, if_pos h]
      rw [jsGet_cons]
      simp
    · obtain ⟨k1, v1⟩ := a
      simp only at h
      simp only [setField, if_pos, if_neg h]
      rw [jsGet_cons]
      simp only [beq_eq_false_iff_ne.mpr h, if_false]
      exact ih

lemma jsGet_setField_ne (k k' : String) (v : JSVal) (r : Row) (h : k' ≠ k) :
    jsGet (setField k v r) k' = jsGet r k' := by
  induction r with
  | nil =>
    show jsGet [(k, v)] k' = jsGet [] k'
    rw [jsGet_cons]
    simp [beq_eq_false_iff_ne.mpr (Ne.symm h)]
  | cons a t ih =>
    obtain ⟨k1, v1⟩ := a
    by_cases ha : k1 = k
    · simp only [setField, if_pos ha]
      rw [jsGet_cons, jsGet_cons]
      have : (k1 == k') = false := beq_eq_false_iff_ne.mpr (ha ▸ Ne.symm h)
      simp [beq_eq_false_iff_ne.mpr (Ne.symm h), this]
    · simp only [setField, if_neg ha]
      rw [jsGet_cons, jsGet_cons]
      cases hk : (k1, v1).1 == k'
      · simp only [if_false]
        exact ih
      · rfl

lemma setField_eq_self (k : String) (v : JSVal) (r : Row) (h : jsGet r k = some v) :
    setField k v r = r := by
  induction r with
  | nil => simp [jsGet] at h
  | cons a t ih =>
    obtain ⟨k1, v1⟩ := a
    rw [jsGet_cons] at h
    by_cases ha : k1 = k
    · simp only [setField, if_pos ha]
      rw [if_pos (beq_iff_eq.mpr ha)] at h
      simp only [Option.some.injEq] at h
      rw [ha, h]
    · simp only [setField, if_neg ha]
      rw [if_neg (by simpa using beq_eq_false_iff_ne.mpr ha)] at h
      rw [ih h]

lemma charOfDigit_isDigit {d : ℕ} (h : d < 10) : isDigitC (charOfDigit d) = true := by
  interval_cases d <;> decide

lemma digitVal_charOfDigit {d : ℕ} (h : d < 10) : digitVal (charOfDigit d) = d := by
  interval_cases d <;> decide

lemma natDigitsAux_all_digits :
    ∀ (fuel n : ℕ), ∀ c ∈ natDigitsAux fuel n, isDigitC c = true := by
  intro fuel
  induction fuel with
  | zero => intro n c hc; simp [natDigitsAux] at hc
  | succ f ih =>
    intro n c hc
    cases n with
    | zero => simp [natDigitsAux] at hc
    | succ m =>
      simp only [natDigitsAux, List.mem_append, List.mem_singleton] at hc
      rcases hc with hc | hc
      · exact ih _ c hc
      · subst hc
        exact charOfDigit_isDigit (Nat.mod_lt _ (by norm_num))

lemma digitsVal_append_one (l : List Char) (c : Char) :
    digitsVal (l ++ [c]) = digitsVal l * 10 + digitVal c := by
  simp [digitsVal, List.foldl_append]

lemma digitsVal_natDigitsAux :
    ∀ (fuel n : ℕ), n ≤ fuel → digitsVal (natDigitsAux fuel n) = n := by
  intro fuel
  induction fuel with
  | zero =>
    intro n h
    interval_cases n
    rfl
  | succ f ih =>
    intro n h
    cases n with
    | zero => rfl
    | succ m =>
      rw [show natDigitsAux (f + 1) (m + 1)
          = natDigitsAux f ((m + 1) / 10) ++ [charOfDigit ((m + 1) % 10)] from rfl,
        digitsVal_append_one,
        ih ((m + 1) / 10) (by
          have := Nat.div_lt_self (show 0 < m + 1 by omega) (show 1 < 10 by norm_num)
          omega),
        digitVal_charOfDigit (Nat.mod_lt _ (by norm_num))]
      omega

lemma natDigitsAux_ne_nil (fuel n : ℕ) (h0 : 0 < n) (h : n ≤ fuel) :
    natDigitsAux fuel n ≠ [] := by
  cases fuel with
  | zero => omega
  | succ f =>
    cases n with
    | zero => omega
    | succ m => simp [natDigitsAux]

lemma natDigitsAux_len_le :
    ∀ (fuel n k : ℕ), n ≤ fuel → n < 10 ^ k → (natDigitsAux fuel n).length ≤ k := by
  intro fuel
  induction fuel with
  | zero =>
    intro n k h hk
    interval_cases n
    simp [natDigitsAux]
  | succ f ih =>
    intro n k h hk
    cases n with
    | zero => simp [natDigitsAux]
    | succ m =>
      cases k with
      | zero => simp at hk
      | succ j =>
        rw [show natDigitsAux (f + 1) (m + 1)
            = natDigitsAux f ((m + 1) / 10) ++ [charOfDigit ((m + 1) % 10)] from rfl,
          List.length_append]
        have hp : (10 : ℕ) ^ (j + 1) = 10 ^ j * 10 := by ring
        rw [hp] at hk
        have hdiv : (m + 1) / 10 < 10 ^ j := by omega
        have hfuel : (m + 1) / 10 ≤ f := by
          have := Nat.div_lt_self (show 0 < m + 1 by omega) (show 1 < 10 by norm_num)
          omega
        have hlen := ih ((m + 1) / 10) j hfuel hdiv
        simp only [List.length_singleton]
        omega

lemma digitsVal_natToStr (n : ℕ) : digitsVal (natToStr n).data = n := by
  by_cases h : n = 0
  · subst h; decide
  · show digitsVal (if n = 0 then "0" else String.mk (natDigitsAux n n)).data = n
    rw [if_neg h]
    exact digitsVal_natDigitsAux n n le_rfl

lemma natToStr_data_digits (n : ℕ) : ∀ c ∈ (natToStr n).data, isDigitC c = true := by
  by_cases h : n = 0
  · subst h; decide
  · show ∀ c ∈ (if n = 0 then "0" else String.mk (natDigitsAux n n)).data, _
    rw [if_neg h]
    exact natDigitsAux_all_digits n n

lemma natToStr_data_ne_nil (n : ℕ) : (natToStr n).data ≠ [] := by
  by_cases h : n = 0
  · subst h; decide
  · show (if n = 0 then "0" else String.mk (natDigitsAux n n)).data ≠ []
    rw [if_neg h]
    exact natDigitsAux_ne_nil n n (by omega) le_rfl

lemma isDigitC_ne_special {c : Char} (h : isDigitC c = true) :
    c ≠ '.' ∧ c ≠ '-' ∧ c ≠ '+' ∧ c ≠ '/' ∧ isWSChar c = false := by
  simp only [isDigitC, Bool.and_eq_true, decide_eq_true_eq] at h
  refine ⟨?_, ?_, ?_, ?_, ?_⟩
  · intro he; subst he; revert h; decide
  · intro he; subst he; revert h; decide
  · intro he; subst he; revert h; decide
  · intro he; subst he; revert h; decide
  · simp only [isWSChar, Bool.or_eq_false_iff, decide_eq_false_iff_not]
    omega

lemma span_cons_not (q : Char → Bool) (xs : List Char) (y : Char) (ys : List Char)
    (hxs : ∀ c ∈ xs, q c = true) (hy : q y = false) :
    (xs ++ y :: ys).takeWhile q = xs ∧ (xs ++ y :: ys).dropWhile q = y :: ys := by
  induction xs with
  | nil =>
    constructor
    · rw [List.nil_append, List.takeWhile_cons, hy]
      rfl
    · rw [List.nil_append, List.dropWhile_cons, hy]
      rfl
  | cons a t ih =>
    have ha : q a = true := hxs a (List.mem_cons_self a t)
    obtain ⟨i1, i2⟩ := ih (fun c hc => hxs c (List.mem_cons_of_mem a hc))
    constructor
    · rw [List.cons_append, List.takeWhile_cons_of_pos ha, i1]
    · rw [List.cons_append, List.dropWhile_cons_of_pos ha, i2]

lemma span_all_true (q : Char → Bool) (cs : List Char) (h : ∀ c ∈ cs, q c = true) :
    cs.takeWhile q = cs ∧ cs.dropWhile q = [] := by
  induction cs with
  | nil => exact ⟨rfl, rfl⟩
  | cons a t ih =>
    have ha : q a = true := h a (List.mem_cons_self a t)
    obtain ⟨i1, i2⟩ := ih (fun c hc => h c (List.mem_cons_of_mem a hc))
    exact ⟨by rw [List.takeWhile_cons_of_pos ha, i1],
      by rw [List.dropWhile_cons_of_pos ha, i2]⟩

lemma span_no_dot (cs : List Char) (h : ∀ c ∈ cs, c ≠ '.') :
    cs.takeWhile (fun c => c ≠ '.') = cs ∧ cs.dropWhile (fun c => c ≠ '.') = [] :=
  span_all_true _ cs (fun c hc => by simpa using h c hc)

lemma span_at_dot (xs ys : List Char) (hxs : ∀ c ∈ xs, c ≠ '.') :
    (xs ++ '.' :: ys).takeWhile (fun c => c ≠ '.') = xs
    ∧ (xs ++ '.' :: ys).dropWhile (fun c => c ≠ '.') = '.' :: ys :=
  span_cons_not _ xs '.' ys (fun c hc => by simpa using hxs c hc) (by simp)

lemma parseNatDigits_of_digits (cs : List Char) (hne : cs ≠ [])
    (h : ∀ c ∈ cs, isDigitC c = true) : parseNatDigits cs = some (digitsVal cs) := by
  unfold parseNatDigits
  rw [if_pos]
  simp only [Bool.and_eq_true, Bool.not_eq_true']
  constructor
  · cases cs with
    | nil => exact absurd rfl hne
    | cons a t => rfl
  · exact List.all_eq_true.mpr h

lemma parseUnsigned_digits (cs : List Char) (hne : cs ≠ [])
    (h : ∀ c ∈ cs, isDigitC c = true) :
    parseUnsigned cs = some ((digitsVal cs : ℕ) : ℚ) := by
  obtain ⟨ht, hd⟩ := span_no_dot cs (fun c hc => (isDigitC_ne_special (h c hc)).1)
  simp only [parseUnsigned, ht, hd, parseNatDigits_of_digits cs hne h, Option.map_some]
  rfl

lemma parseUnsigned_decimal (xs ys : List Char) (hne : xs ≠ [])
    (hxs : ∀ c ∈ xs, isDigitC c = true) (hys : ∀ c ∈ ys, isDigitC c = true) :
    parseUnsigned (xs ++ '.' :: ys)
      = some (Rat.divInt ((digitsVal xs * 10 ^ ys.length + digitsVal ys : ℕ) : ℤ)
          ((10 ^ ys.length : ℕ) : ℤ)) := by
  obtain ⟨ht, hd⟩ := span_at_dot xs ys (fun c hc => (isDigitC_ne_special (hxs c hc)).1)
  have hcont : ys.contains '.' = false := by
    cases hc : ys.contains '.'
    · rfl
    · exfalso
      obtain ⟨x, hx, hbeq⟩ := List.contains_iff_exists_mem_beq.mp hc
      have hxd : x = '.' := (beq_iff_eq.mp hbeq).symm
      subst hxd
      exact (isDigitC_ne_special (hys _ hx)).1 rfl
  simp only [parseUnsigned, ht, hd, hcont, Bool.false_eq_true, if_false]
  rw [if_pos]
  · simp only [Bool.and_eq_true, Bool.or_eq_true, Bool.not_eq_true']
    refine ⟨⟨Or.inl ?_, List.all_eq_true.mpr hxs⟩, List.all_eq_true.mpr hys⟩
    cases xs with
    | nil => exact absurd rfl hne
    | cons a t => rfl

lemma parseUnsigned_slash_none (cs : List Char)
    (hdot : ∀ c ∈ cs, c ≠ '.') (hsl : '/' ∈ cs) : parseUnsigned cs = none := by
  obtain ⟨ht, hd⟩ := span_no_dot cs hdot
  have hall : cs.all isDigitC = false := by
    cases hac : cs.all isDigitC
    · rfl
    · exfalso
      have := List.all_eq_true.mp hac '/' hsl
      exact absurd this (by decide)
  have hpn : parseNatDigits cs = none := by
    unfold parseNatDigits
    rw [if_neg]
    simp [hall]
  simp only [parseUnsigned, ht, hd, hpn, Option.map_none]
  rfl

lemma parseJSNum_data (s : String) (c : Char) (t : List Char) (h : s.data = c :: t) :
    parseJSNum s = if c = '-' then (parseUnsigned t).map Neg.neg
      else if c = '+' then parseUnsigned t else parseUnsigned (c :: t) := by
  unfold parseJSNum
  rw [h]

lemma parseJSNum_natToStr (n : ℕ) : parseJSNum (natToStr n) = some ((n : ℕ) : ℚ) := by
  rcases hx : (natToStr n).data with _ | ⟨c, t⟩
  · exact absurd hx (natToStr_data_ne_nil n)
  · have hcd : isDigitC c = true :=
      natToStr_data_digits n c (hx ▸ List.mem_cons_self c t)
    obtain ⟨-, hm, hp, -, -⟩ := isDigitC_ne_special hcd
    rw [parseJSNum_data (natToStr n) c t hx, if_neg hm, if_neg hp,
      parseUnsigned_digits (c :: t) (List.cons_ne_nil c t)
        (fun x hxm => natToStr_data_digits n x (hx ▸ hxm)),
      show digitsVal (c :: t) = n from hx ▸ digitsVal_natToStr n]

lemma parseJSNum_intToStr (z : ℤ) : parseJSNum (intToStr z) = some ((z : ℤ) : ℚ) := by
  by_cases hz : z < 0
  · have hs : intToStr z = "-" ++ natToStr z.natAbs := by
      unfold intToStr
      rw [if_pos hz]
    have hdata : (intToStr z).data = '-' :: (natToStr z.natAbs).data := by
      rw [hs]
      rfl
    rw [parseJSNum_data (intToStr z) '-' (natToStr z.natAbs).data hdata, if_pos rfl,
      parseUnsigned_digits (natToStr z.natAbs).data (natToStr_data_ne_nil _)
        (natToStr_data_digits z.natAbs), digitsVal_natToStr]
    show some (-((z.natAbs : ℕ) : ℚ)) = some ((z : ℤ) : ℚ)
    congr 1
    have h3 : ((z.natAbs : ℕ) : ℤ) = -z := by omega
    rw [show ((z.natAbs : ℕ) : ℚ) = (((z.natAbs : ℕ) : ℤ) : ℚ) from
      (Int.cast_natCast z.natAbs).symm, h3]
    push_cast
    ring
  · have hs : intToStr z = natToStr z.natAbs := by
      unfold intToStr
      rw [if_neg hz]
    rw [hs, parseJSNum_natToStr]
    congr 1
    have h3 : ((z.natAbs : ℕ) : ℤ) = z := by omega
    rw [show ((z.natAbs : ℕ) : ℚ) = (((z.natAbs : ℕ) : ℤ) : ℚ) from
      (Int.cast_natCast z.natAbs).symm, h3]

lemma digitsVal_replicate_zero (m : ℕ) (l : List Char) :
    digitsVal (List.replicate m '0' ++ l) = digitsVal l := by
  induction m with
  | zero => rfl
  | succ j ih =>
    rw [List.replicate_succ, List.cons_append]
    exact ih

lemma intToStr_chars (z : ℤ) :
    ∀ c ∈ (intToStr z).data, isDigitC c = true ∨ c = '-' := by
  intro c hc
  by_cases hz : z < 0
  · rw [show intToStr z = "-" ++ natToStr z.natAbs from by unfold intToStr; rw [if_pos hz],
      show ("-" ++ natToStr z.natAbs).data = '-' :: (natToStr z.natAbs).data from rfl] at hc
    rcases List.mem_cons.mp hc with hc | hc
    · exact Or.inr hc
    · exact Or.inl (natToStr_data_digits _ c hc)
  · rw [show intToStr z = natToStr z.natAbs from by unfold intToStr; rw [if_neg hz]] at hc
    exact Or.inl (natToStr_data_digits _ c hc)

lemma pad2_chars (n : ℕ) : ∀ c ∈ (pad2 n).data, isDigitC c = true := by
  intro c hc
  unfold pad2 at hc
  by_cases hn : n < 10
  · rw [if_pos hn, show ("0" ++ natToStr n).data = '0' :: (natToStr n).data from rfl] at hc
    rcases List.mem_cons.mp hc with hc | hc
    · subst hc; decide
    · exact natToStr_data_digits _ c hc
  · rw [if_neg hn] at hc
    exact natToStr_data_digits _ c hc

lemma formatCivil_chars (x : ℤ × ℕ × ℕ) :
    ∀ c ∈ (formatCivil x).data, isDigitC c = true ∨ c = '-' := by
  intro c hc
  have hd : (formatCivil x).data
      = ((((intToStr x.1).data ++ ['-']) ++ (pad2 x.2.1).data) ++ ['-'])
          ++ (pad2 x.2.2).data := rfl
  rw [hd] at hc
  simp only [List.mem_append, List.mem_singleton] at hc
  rcases hc with ((((hc | hc) | hc) | hc) | hc)
  · exact intToStr_chars x.1 c hc
  · exact Or.inr hc
  · exact Or.inl (pad2_chars _ c hc)
  · exact Or.inr hc
  · exact Or.inl (pad2_chars _ c hc)

lemma mondayLabel_chars (t : ℤ) :
    ∀ c ∈ (mondayLabel t).data, isDigitC c = true ∨ c = '-' :=
  formatCivil_chars _

lemma toLower_fix_lt65 (c : Char) (h : c.toNat < 65) : c.toLower = c := by
  show (if c.toNat ≥ 65 ∧ c.toNat ≤ 90 then Char.ofNat (c.toNat + 32) else c) = c
  rw [if_neg (by omega)]

lemma digit_dash_not_ws (c : Char) (h : isDigitC c = true ∨ c = '-') :
    isWSChar c = false := by
  rcases h with h | h
  · exact (isDigitC_ne_special h).2.2.2.2
  · subst h; decide

lemma lowerStr_fix (s : String) (h : ∀ c ∈ s.data, isDigitC c = true ∨ c = '-') :
    lowerStr s = s := by
  show String.mk (s.data.map Char.toLower) = s
  have : s.data.map Char.toLower = s.data := by
    have hcongr : ∀ c ∈ s.data, c.toLower = c := by
      intro c hc
      rcases h c hc with hd | hd
      · simp only [isDigitC, Bool.and_eq_true, decide_eq_true_eq] at hd
        exact toLower_fix_lt65 c (by omega)
      · subst hd; decide
    calc s.data.map Char.toLower = s.data.map id := List.map_congr_left hcongr
    _ = s.data := List.map_id s.data
  rw [this]

lemma monday_ne_unknown (t : ℤ) : (lowerStr (mondayLabel t) == "unknown") = false := by
  cases hb : lowerStr (mondayLabel t) == "unknown"
  · rfl
  · exfalso
    have heq : lowerStr (mondayLabel t) = "unknown" := beq_iff_eq.mp hb
    rw [lowerStr_fix _ (mondayLabel_chars t)] at heq
    have hu : 'u' ∈ (mondayLabel t).data := by
      rw [heq]
      decide
    rcases mondayLabel_chars t 'u' hu with hd | hd
    · exact absurd hd (by decide)
    · exact absurd hd (by decide)

lemma weekNeedsDerive_monday (t : ℤ) :
    weekNeedsDerive (some (.str (mondayLabel t))) = false := by
  have h1 : jsTruthy (.str (mondayLabel t)) = true := by
    show (!(mondayLabel t).isEmpty) = true
    rw [mondayLabel_isEmpty_false]
    rfl
  have h2 : trimStr (mondayLabel t) = mondayLabel t :=
    trimStr_of_no_ws _ (fun c hc => digit_dash_not_ws c (mondayLabel_chars t c hc))
  show (!jsTruthy (.str (mondayLabel t))
      || (trimStr (jsToString (.str (mondayLabel t)))).isEmpty
      || lowerStr (jsToString (.str (mondayLabel t))) == "unknown") = false
  rw [h1, show jsToString (.str (mondayLabel t)) = mondayLabel t from rfl, h2,
    mondayLabel_isEmpty_false, monday_ne_unknown]
  rfl

lemma toNum_numOrNull (o : Option ℚ) : toNum (numOrNull o) = o := by
  cases o <;> rfl

lemma pad_chars (k : ℕ) (M : ℕ) :
    ∀ c ∈ List.replicate (k - (natDigitsAux M M).length) '0' ++ natDigitsAux M M,
      isDigitC c = true := by
  intro c hc
  rcases List.mem_append.mp hc with hc | hc
  · rw [List.eq_of_mem_replicate hc]
    decide
  · exact natDigitsAux_all_digits M M c hc

lemma decimal_print_unsigned (N k : ℕ) :
    parseUnsigned ((natToStr (N / 10 ^ k)).data ++ '.' ::
        (List.replicate (k - (natDigitsAux (N % 10 ^ k) (N % 10 ^ k)).length) '0'
          ++ natDigitsAux (N % 10 ^ k) (N % 10 ^ k)))
      = some (Rat.divInt ((N : ℕ) : ℤ) ((10 ^ k : ℕ) : ℤ)) := by
  have hMlt : N % 10 ^ k < 10 ^ k := Nat.mod_lt _ (pow_pos (by norm_num) k)
  have hlen : (natDigitsAux (N % 10 ^ k) (N % 10 ^ k)).length ≤ k :=
    natDigitsAux_len_le _ _ k le_rfl hMlt
  have hpadlen : (List.replicate (k - (natDigitsAux (N % 10 ^ k) (N % 10 ^ k)).length) '0'
      ++ natDigitsAux (N % 10 ^ k) (N % 10 ^ k)).length = k := by
    rw [List.length_append, List.length_replicate]
    omega
  rw [parseUnsigned_decimal (natToStr (N / 10 ^ k)).data _ (natToStr_data_ne_nil _)
    (natToStr_data_digits _) (pad_chars k (N % 10 ^ k))]
  rw [digitsVal_natToStr, digitsVal_replicate_zero, digitsVal_natDigitsAux _ _ le_rfl,
    hpadlen]
  have hNdm : N / 10 ^ k * 10 ^ k + N % 10 ^ k = N := by
    have h := Nat.div_add_mod N (10 ^ k)
    rw [Nat.mul_comm (10 ^ k) (N / 10 ^ k)] at h
    exact h
  rw [hNdm]

lemma decimal_print_parse_pos (N k : ℕ) :
    parseJSNum (natToStr (N / 10 ^ k) ++ "." ++
        String.mk (List.replicate (k - (natDigitsAux (N % 10 ^ k) (N % 10 ^ k)).length) '0'
          ++ natDigitsAux (N % 10 ^ k) (N % 10 ^ k)))
      = some (Rat.divInt ((N : ℕ) : ℤ) ((10 ^ k : ℕ) : ℤ)) := by
  rcases hx : (natToStr (N / 10 ^ k)).data with _ | ⟨c, t⟩
  · exact absurd hx (natToStr_data_ne_nil _)
  · have hcd : isDigitC c = true :=
      natToStr_data_digits _ c (hx ▸ List.mem_cons_self c t)
    obtain ⟨-, hm, hp, -, -⟩ := isDigitC_ne_special hcd
    have hd : (natToStr (N / 10 ^ k) ++ "." ++
        String.mk (List.replicate (k - (natDigitsAux (N % 10 ^ k) (N % 10 ^ k)).length) '0'
          ++ natDigitsAux (N % 10 ^ k) (N % 10 ^ k))).data
        = c :: (t ++ '.' ::
            (List.replicate (k - (natDigitsAux (N % 10 ^ k) (N % 10 ^ k)).length) '0'
              ++ natDigitsAux (N % 10 ^ k) (N % 10 ^ k))) := by
      show ((natToStr (N / 10 ^ k)).data ++ ['.'])
          ++ (List.replicate (k - (natDigitsAux (N % 10 ^ k) (N % 10 ^ k)).length) '0'
            ++ natDigitsAux (N % 10 ^ k) (N % 10 ^ k)) = _
      rw [hx, List.append_assoc]
      rfl
    rw [parseJSNum_data _ c _ hd, if_neg hm, if_neg hp,
      show c :: (t ++ '.' ::
          (List.replicate (k - (natDigitsAux (N % 10 ^ k) (N % 10 ^ k)).length) '0'
            ++ natDigitsAux (N % 10 ^ k) (N % 10 ^ k)))
        = (natToStr (N / 10 ^ k)).data ++ '.' ::
            (List.replicate (k - (natDigitsAux (N % 10 ^ k) (N % 10 ^ k)).length) '0'
              ++ natDigitsAux (N % 10 ^ k) (N % 10 ^ k)) from by rw [hx]; rfl,
      decimal_print_unsigned]

lemma decimal_print_parse_neg (N k : ℕ) :
    parseJSNum ("-" ++ natToStr (N / 10 ^ k) ++ "." ++
        String.mk (List.replicate (k - (natDigitsAux (N % 10 ^ k) (N % 10 ^ k)).length) '0'
          ++ natDigitsAux (N % 10 ^ k) (N % 10 ^ k)))
      = some (-Rat.divInt ((N : ℕ) : ℤ) ((10 ^ k : ℕ) : ℤ)) := by
  have hd : ("-" ++ natToStr (N / 10 ^ k) ++ "." ++
      String.mk (List.replicate (k - (natDigitsAux (N % 10 ^ k) (N % 10 ^ k)).length) '0'
        ++ natDigitsAux (N % 10 ^ k) (N % 10 ^ k))).data
      = '-' :: ((natToStr (N / 10 ^ k)).data ++ '.' ::
          (List.replicate (k - (natDigitsAux (N % 10 ^ k) (N % 10 ^ k)).length) '0'
            ++ natDigitsAux (N % 10 ^ k) (N % 10 ^ k))) := by
    show (('-' :: (natToStr (N / 10 ^ k)).data) ++ ['.'])
        ++ (List.replicate (k - (natDigitsAux (N % 10 ^ k) (N % 10 ^ k)).length) '0'
          ++ natDigitsAux (N % 10 ^ k) (N % 10 ^ k)) = _
    rw [List.append_assoc]
    rfl
  rw [parseJSNum_data _ '-' _ hd, if_pos rfl, decimal_print_unsigned]
  rfl

lemma divInt_print_eq_pos (q : ℚ) (k : ℕ) (hdvd : q.den ∣ 10 ^ k) (hpos : 0 ≤ q.num) :
    Rat.divInt ((q.num.natAbs * (10 ^ k / q.den) : ℕ) : ℤ) ((10 ^ k : ℕ) : ℤ) = q := by
  have hdenpos : 0 < q.den := q.pos
  have hE : 10 ^ k / q.den * q.den = 10 ^ k := Nat.div_mul_cancel hdvd
  have hEpos : 0 < 10 ^ k / q.den :=
    Nat.div_pos (Nat.le_of_dvd (pow_pos (by norm_num) k) hdvd) hdenpos
  have hE0 : ((10 ^ k / q.den : ℕ) : ℚ) ≠ 0 :=
    Nat.cast_ne_zero.mpr (Nat.pos_iff_ne_zero.mp hEpos)
  rw [Rat.divInt_eq_div]
  have hcast1 : (((q.num.natAbs * (10 ^ k / q.den) : ℕ) : ℤ) : ℚ)
      = ((q.num.natAbs : ℕ) : ℚ) * ((10 ^ k / q.den : ℕ) : ℚ) := by
    rw [Int.cast_natCast, Nat.cast_mul]
  have hcast2 : ((q.num.natAbs : ℕ) : ℚ) = ((q.num : ℤ) : ℚ) := by
    have h3 : ((q.num.natAbs : ℕ) : ℤ) = q.num := by omega
    rw [show ((q.num.natAbs : ℕ) : ℚ) = (((q.num.natAbs : ℕ) : ℤ) : ℚ) from
      (Int.cast_natCast q.num.natAbs).symm, h3]
  have hcast3 : (((10 ^ k : ℕ) : ℤ) : ℚ) = ((10 ^ k / q.den : ℕ) : ℚ) * ((q.den : ℕ) : ℚ) := by
    rw [show ((10 ^ k / q.den : ℕ) : ℚ) * ((q.den : ℕ) : ℚ)
        = ((10 ^ k / q.den * q.den : ℕ) : ℚ) from (Nat.cast_mul _ _).symm, hE,
      Int.cast_natCast]
  rw [hcast1, hcast2, hcast3, mul_comm ((q.num : ℤ) : ℚ), mul_div_mul_left _ _ hE0]
  exact Rat.num_div_den q

lemma divInt_print_eq_neg (q : ℚ) (k : ℕ) (hdvd : q.den ∣ 10 ^ k) (hneg : q.num < 0) :
    -Rat.divInt ((q.num.natAbs * (10 ^ k / q.den) : ℕ) : ℤ) ((10 ^ k : ℕ) : ℤ) = q := by
  have hdenpos : 0 < q.den := q.pos
  have hE : 10 ^ k / q.den * q.den = 10 ^ k := Nat.div_mul_cancel hdvd
  have hEpos : 0 < 10 ^ k / q.den :=
    Nat.div_pos (Nat.le_of_dvd (pow_pos (by norm_num) k) hdvd) hdenpos
  have hE0 : ((10 ^ k / q.den : ℕ) : ℚ) ≠ 0 :=
    Nat.cast_ne_zero.mpr (Nat.pos_iff_ne_zero.mp hEpos)
  rw [Rat.divInt_eq_div]
  have hcast1 : (((q.num.natAbs * (10 ^ k / q.den) : ℕ) : ℤ) : ℚ)
      = ((q.num.natAbs : ℕ) : ℚ) * ((10 ^ k / q.den : ℕ) : ℚ) := by
    rw [Int.cast_natCast, Nat.cast_mul]
  have hcast2 : ((q.num.natAbs : ℕ) : ℚ) = -((q.num : ℤ) : ℚ) := by
    have h3 : ((q.num.natAbs : ℕ) : ℤ) = -q.num := by omega
    rw [show ((q.num.natAbs : ℕ) : ℚ) = (((q.num.natAbs : ℕ) : ℤ) : ℚ) from
      (Int.cast_natCast q.num.natAbs).symm, h3]
    push_cast
    ring
  have hcast3 : (((10 ^ k : ℕ) : ℤ) : ℚ) = ((10 ^ k / q.den : ℕ) : ℚ) * ((q.den : ℕ) : ℚ) := by
    rw [show ((10 ^ k / q.den : ℕ) : ℚ) * ((q.den : ℕ) : ℚ)
        = ((10 ^ k / q.den * q.den : ℕ) : ℚ) from (Nat.cast_mul _ _).symm, hE,
      Int.cast_natCast]
  rw [hcast1, hcast2, hcast3]
  rw [show -(-((q.num : ℤ) : ℚ) * ((10 ^ k / q.den : ℕ) : ℚ)
        / (((10 ^ k / q.den : ℕ) : ℚ) * ((q.den : ℕ) : ℚ)))
      = ((q.num : ℤ) : ℚ) * ((10 ^ k / q.den : ℕ) : ℚ)
        / (((10 ^ k / q.den : ℕ) : ℚ) * ((q.den : ℕ) : ℚ)) from by ring,
    mul_comm ((q.num : ℤ) : ℚ), mul_div_mul_left _ _ hE0]
  exact Rat.num_div_den q

lemma empty_append_str (s : String) : "" ++ s = s := by
  cases s
  rfl

lemma numToStrQ_decimal_spec (q : ℚ) (k N : ℕ)
    (hN : N = q.num.natAbs * (10 ^ k / q.den))
    (hdvd : q.den ∣ 10 ^ k)
    (hsq : numToStrQ q = (if q.num < 0 then "-" else "")
        ++ natToStr (N / 10 ^ k) ++ "." ++ String.mk
          (List.replicate (k - (natDigitsAux (N % 10 ^ k) (N % 10 ^ k)).length) '0'
            ++ natDigitsAux (N % 10 ^ k) (N % 10 ^ k))) :
    (∀ c ∈ (numToStrQ q).data, isDigitC c = true ∨ c = '-' ∨ c = '.' ∨ c = '/')
    ∧ (numToStrQ q).data ≠ []
    ∧ parseJSNum (numToStrQ q) = some q := by
  by_cases hsgn : q.num < 0
  · rw [if_pos hsgn] at hsq
    have hdata : (numToStrQ q).data
        = (('-' :: (natToStr (N / 10 ^ k)).data) ++ ['.'])
          ++ (List.replicate (k - (natDigitsAux (N % 10 ^ k) (N % 10 ^ k)).length) '0'
            ++ natDigitsAux (N % 10 ^ k) (N % 10 ^ k)) := by
      rw [hsq]
      rfl
    refine ⟨?_, ?_, ?_⟩
    · intro c hc
      rw [hdata] at hc
      simp only [List.mem_append, List.mem_cons, List.not_mem_nil, or_false] at hc
      rcases hc with ((hc | hc) | hc) | (hc | hc)
      · exact Or.inr (Or.inl hc)
      · exact Or.inl (natToStr_data_digits _ c hc)
      · exact Or.inr (Or.inr (Or.inl hc))
      · rw [List.eq_of_mem_replicate hc]
        exact Or.inl (by decide)
      · exact Or.inl (natDigitsAux_all_digits _ _ c hc)
    · rw [hdata]
      simp
    · rw [hsq, decimal_print_parse_neg N k]
      rw [hN]
      rw [divInt_print_eq_neg q k hdvd hsgn]
  · rw [if_neg hsgn, empty_append_str] at hsq
    have hdata : (numToStrQ q).data
        = (((natToStr (N / 10 ^ k)).data) ++ ['.'])
          ++ (List.replicate (k - (natDigitsAux (N % 10 ^ k) (N % 10 ^ k)).length) '0'
            ++ natDigitsAux (N % 10 ^ k) (N % 10 ^ k)) := by
      rw [hsq]
      rfl
    refine ⟨?_, ?_, ?_⟩
    · intro c hc
      rw [hdata] at hc
      simp only [List.mem_append, List.mem_cons, List.not_mem_nil, or_false] at hc
      rcases hc with (hc | hc) | (hc | hc)
      · exact Or.inl (natToStr_data_digits _ c hc)
      · exact Or.inr (Or.inr (Or.inl hc))
      · rw [List.eq_of_mem_replicate hc]
        exact Or.inl (by decide)
      · exact Or.inl (natDigitsAux_all_digits _ _ c hc)
    · rw [hdata]
      simp
    · rw [hsq, decimal_print_parse_pos N k]
      rw [hN]
      rw [divInt_print_eq_pos q k hdvd (not_lt.mp hsgn)]

lemma numToStrQ_fraction_none (q : ℚ)
    (hsq : numToStrQ q = intToStr q.num ++ "/" ++ natToStr q.den) :
    parseJSNum (numToStrQ q) = none := by
  by_cases hsgn : q.num < 0
  · have hint : intToStr q.num = "-" ++ natToStr q.num.natAbs := by
      unfold intToStr
      rw [if_pos hsgn]
    have hdata : (numToStrQ q).data
        = '-' :: (((natToStr q.num.natAbs).data ++ ['/']) ++ (natToStr q.den).data) := by
      rw [hsq, hint]
      rfl
    rw [parseJSNum_data _ '-' _ hdata, if_pos rfl]
    rw [parseUnsigned_slash_none _ ?hdot ?hsl]
    case hdot =>
      intro c hc
      simp only [List.mem_append, List.mem_singleton] at hc
      rcases hc with (hc | hc) | hc
      · exact (isDigitC_ne_special (natToStr_data_digits _ c hc)).1
      · subst hc; decide
      · exact (isDigitC_ne_special (natToStr_data_digits _ c hc)).1
    case hsl =>
      simp
    rfl
  · have hint : intToStr q.num = natToStr q.num.natAbs := by
      unfold intToStr
      rw [if_neg hsgn]
    rcases hx : (natToStr q.num.natAbs).data with _ | ⟨c, t⟩
    · exact absurd hx (natToStr_data_ne_nil _)
    · have hcd : isDigitC c = true :=
        natToStr_data_digits _ c (hx ▸ List.mem_cons_self c t)
      obtain ⟨-, hm, hp, -, -⟩ := isDigitC_ne_special hcd
      have hdata : (numToStrQ q).data
          = c :: (t ++ ('/' :: (natToStr q.den).data)) := by
        rw [hsq, hint]
        show ((natToStr q.num.natAbs).data ++ ['/']) ++ (natToStr q.den).data = _
        rw [hx, List.append_assoc]
        rfl
      rw [parseJSNum_data _ c _ hdata, if_neg hm, if_neg hp]
      apply parseUnsigned_slash_none
      · intro x hxm
        rcases List.mem_cons.mp hxm with hxm | hxm
        · subst hxm
          exact (isDigitC_ne_special hcd).1
        · rcases List.mem_append.mp hxm with hxm | hxm
          · exact (isDigitC_ne_special (natToStr_data_digits _ x
              (hx ▸ List.mem_cons_of_mem c hxm))).1
          · rcases List.mem_cons.mp hxm with hxm | hxm
            · subst hxm; decide
            · exact (isDigitC_ne_special (natToStr_data_digits _ x hxm)).1
      · simp

lemma numToStrQ_spec (q : ℚ) :
    (∀ c ∈ (numToStrQ q).data, isDigitC c = true ∨ c = '-' ∨ c = '.' ∨ c = '/')
    ∧ (numToStrQ q).data ≠ []
    ∧ (parseJSNum (numToStrQ q) = some q ∨ parseJSNum (numToStrQ q) = none) := by
  by_cases hden : q.den = 1
  · have hs : numToStrQ q = intToStr q.num := by
      unfold numToStrQ
      rw [if_pos hden]
    refine ⟨?_, ?_, Or.inl ?_⟩
    · intro c hc
      rw [hs] at hc
      rcases intToStr_chars q.num c hc with h | h
      · exact Or.inl h
      · exact Or.inr (Or.inl h)
    · rw [hs]
      by_cases hz : q.num < 0
      · rw [show intToStr q.num = "-" ++ natToStr q.num.natAbs from by
          unfold intToStr; rw [if_pos hz],
          show ("-" ++ natToStr q.num.natAbs).data
            = '-' :: (natToStr q.num.natAbs).data from rfl]
        simp
      · rw [show intToStr q.num = natToStr q.num.natAbs from by
          unfold intToStr; rw [if_neg hz]]
        exact natToStr_data_ne_nil _
    · rw [hs, parseJSNum_intToStr]
      congr 1
      conv_rhs => rw [← Rat.num_div_den q]
      rw [hden]
      simp
  · by_cases hterm : 2 ^ multAux 2 q.den q.den * 5 ^ multAux 5 q.den q.den = q.den
    · have hdvd : q.den ∣ 10 ^ max (multAux 2 q.den q.den) (multAux 5 q.den q.den) := by
        have h10 : (10 : ℕ) ^ max (multAux 2 q.den q.den) (multAux 5 q.den q.den)
            = 2 ^ max (multAux 2 q.den q.den) (multAux 5 q.den q.den)
              * 5 ^ max (multAux 2 q.den q.den) (multAux 5 q.den q.den) := by
          rw [show (10 : ℕ) = 2 * 5 from rfl, mul_pow]
        have key : 2 ^ multAux 2 q.den q.den * 5 ^ multAux 5 q.den q.den
            ∣ 10 ^ max (multAux 2 q.den q.den) (multAux 5 q.den q.den) := by
          rw [h10]
          exact mul_dvd_mul (pow_dvd_pow 2 (le_max_left _ _))
            (pow_dvd_pow 5 (le_max_right _ _))
        exact dvd_trans (dvd_of_eq hterm.symm) key
      have hspec := numToStrQ_decimal_spec q
        (max (multAux 2 q.den q.den) (multAux 5 q.den q.den))
        (q.num.natAbs * (10 ^ max (multAux 2 q.den q.den) (multAux 5 q.den q.den) / q.den))
        rfl hdvd (by
          simp only [numToStrQ]
          rw [if_neg hden, if_pos hterm])
      exact ⟨hspec.1, hspec.2.1, Or.inl hspec.2.2⟩
    · have hs : numToStrQ q = intToStr q.num ++ "/" ++ natToStr q.den := by
        unfold numToStrQ
        rw [if_neg hden, if_neg hterm]
      refine ⟨?_, ?_, Or.inr (numToStrQ_fraction_none q hs)⟩
      · intro c hc
        rw [show (numToStrQ q).data
            = ((intToStr q.num).data ++ ['/']) ++ (natToStr q.den).data from by
          rw [hs]; rfl] at hc
        simp only [List.mem_append, List.mem_singleton] at hc
        rcases hc with (hc | hc) | hc
        · rcases intToStr_chars q.num c hc with h | h
          · exact Or.inl h
          · exact Or.inr (Or.inl h)
        · exact Or.inr (Or.inr (Or.inr hc))
        · exact Or.inl (natToStr_data_digits _ c hc)
      · rw [show (numToStrQ q).data
            = ((intToStr q.num).data ++ ['/']) ++ (natToStr q.den).data from by
          rw [hs]; rfl]
        simp

lemma numToStrQ_no_ws (q : ℚ) : ∀ c ∈ (numToStrQ q).data, isWSChar c = false := by
  intro c hc
  rcases (numToStrQ_spec q).1 c hc with h | h | h | h
  · exact (isDigitC_ne_special h).2.2.2.2
  · subst h; decide
  · subst h; decide
  · subst h; decide

lemma numToStrQ_isEmpty_false (q : ℚ) : (numToStrQ q).isEmpty = false := by
  cases he : (numToStrQ q).isEmpty
  · rfl
  · exact absurd (congrArg String.data ((String.isEmpty_iff _).mp he)) (numToStrQ_spec q).2.1

lemma toNum_print (q : ℚ) : toNum (.str (numToStrQ q)) = parseJSNum (numToStrQ q) := by
  simp only [toNum]
  rw [trimStr_of_no_ws _ (numToStrQ_no_ws q), numToStrQ_isEmpty_false]
  simp

lemma toBin01_eq_one (v : JSVal) (h : toNum v = some 1) : toBin01 v = "1" := by
  simp only [toBin01]
  rw [h, if_pos rfl]

lemma toBin01_eq_zero (v : JSVal) (h0 : toNum v = some 0) (h1 : toNum v ≠ some 1) :
    toBin01 v = "0" := by
  simp only [toBin01]
  rw [if_neg (h0 ▸ h1), if_pos h0]

lemma toBin01_str_fallback (s : String) (h1 : toNum (.str s) ≠ some 1)
    (h0 : toNum (.str s) ≠ some 0) : toBin01 (.str s) = trimStr s := by
  simp only [toBin01]
  rw [if_neg h1, if_neg h0]
  rfl

lemma toBin01_num_fallback (q : ℚ) (h1 : toNum (.num q) ≠ some 1)
    (h0 : toNum (.num q) ≠ some 0) : toBin01 (.num q) = trimStr (numToStrQ q) := by
  simp only [toBin01]
  rw [if_neg h1, if_neg h0]
  rfl

lemma toNum_str_trim (s : String) : toNum (.str (trimStr s)) = toNum (.str s) := by
  simp only [toNum]
  rw [trimStr_trimStr]

lemma toBin01_print_stable (q : ℚ) (h1 : q ≠ 1) (h0 : q ≠ 0) :
    toBin01 (.str (numToStrQ q)) = numToStrQ q := by
  have htn := toNum_print q
  rcases (numToStrQ_spec q).2.2 with hp | hp
  · rw [toBin01_str_fallback (numToStrQ q)
        (by rw [htn, hp]; intro he; exact h1 (Option.some.inj he))
        (by rw [htn, hp]; intro he; exact h0 (Option.some.inj he)),
      trimStr_of_no_ws _ (numToStrQ_no_ws q)]
  · rw [toBin01_str_fallback (numToStrQ q)
        (by rw [htn, hp]; exact fun he => Option.noConfusion he)
        (by rw [htn, hp]; exact fun he => Option.noConfusion he),
      trimStr_of_no_ws _ (numToStrQ_no_ws q)]

lemma toBin01_idem (v : JSVal) : toBin01 (.str (toBin01 v)) = toBin01 v := by
  by_cases h1 : toNum v = some 1
  · rw [toBin01_eq_one v h1]
    decide
  · by_cases h0 : toNum v = some 0
    · rw [toBin01_eq_zero v h0 h1]
      decide
    · cases v with
      | null => decide
      | num q =>
        have hq1 : q ≠ 1 := fun he => h1 (by rw [show toNum (.num q) = some q from rfl, he])
        have hq0 : q ≠ 0 := fun he => h0 (by rw [show toNum (.num q) = some q from rfl, he])
        rw [toBin01_num_fallback q h1 h0, trimStr_of_no_ws _ (numToStrQ_no_ws q)]
        exact toBin01_print_stable q hq1 hq0
      | str s =>
        rw [toBin01_str_fallback s h1 h0]
        have h1' : toNum (.str (trimStr s)) ≠ some 1 := by
          rw [toNum_str_trim]
          exact h1
        have h0' : toNum (.str (trimStr s)) ≠ some 0 := by
          rw [toNum_str_trim]
          exact h0
        rw [toBin01_str_fallback _ h1' h0', trimStr_trimStr]

lemma jsGet_normFieldStep_ne (k k' : String) (f : JSVal → JSVal) (r : Row) (h : k' ≠ k) :
    jsGet (normFieldStep k f r) k' = jsGet r k' := by
  unfold normFieldStep
  cases hg : jsGet r k
  · rfl
  · exact jsGet_setField_ne k k' _ r h

lemma jsGet_normFieldStep_self (k : String) (f : JSVal → JSVal) (r : Row) :
    jsGet (normFieldStep k f r) k = (jsGet r k).map f := by
  unfold normFieldStep
  cases hg : jsGet r k
  · rw [hg]
    rfl
  · rw [jsGet_setField_self]
    rfl

lemma jsGet_normWeekStep_ne (k' : String) (r : Row) (h : k' ≠ "Week") :
    jsGet (normWeekStep r) k' = jsGet r k' := by
  unfold normWeekStep
  split_ifs
  · exact jsGet_setField_ne _ _ _ _ h
  · rfl

lemma normFieldStep_fix (k : String) (f : JSVal → JSVal) (r : Row)
    (h : ∀ v, jsGet r k = some v → f v = v) :
    normFieldStep k f r = r := by
  unfold normFieldStep
  cases hg : jsGet r k with
  | none => rfl
  | some v =>
    show setField k (f v) r = r
    rw [h v hg]
    exact setField_eq_self k v r hg

lemma jsGet_normalizeRow_ne (r : Row) (k : String) (h1 : k ≠ "Week")
    (h2 : k ≠ "SMS_received") (h3 : k ≠ "NoShow") (h4 : k ≠ "WaitingDays") :
    jsGet (normalizeRow r) k = jsGet r k := by
  unfold normalizeRow
  rw [jsGet_normFieldStep_ne _ _ _ _ h4, jsGet_normFieldStep_ne _ _ _ _ h3,
    jsGet_normFieldStep_ne _ _ _ _ h2, jsGet_normWeekStep_ne _ _ h1]

lemma jsGet_normalizeRow_week (r : Row) :
    jsGet (normalizeRow r) "Week" = jsGet (normWeekStep r) "Week" := by
  unfold normalizeRow
  rw [jsGet_normFieldStep_ne _ _ _ _ (by decide), jsGet_normFieldStep_ne _ _ _ _ (by decide),
    jsGet_normFieldStep_ne _ _ _ _ (by decide)]

lemma jsGet_normalizeRow_sms (r : Row) :
    jsGet (normalizeRow r) "SMS_received"
      = (jsGet r "SMS_received").map (fun v => JSVal.str (toBin01 v)) := by
  unfold normalizeRow
  rw [jsGet_normFieldStep_ne _ _ _ _ (by decide), jsGet_normFieldStep_ne _ _ _ _ (by decide),
    jsGet_normFieldStep_self, jsGet_normWeekStep_ne _ _ (by decide)]

lemma jsGet_normalizeRow_noshow (r : Row) :
    jsGet (normalizeRow r) "NoShow"
      = (jsGet r "NoShow").map (fun v => numOrNull (toNum v)) := by
  unfold normalizeRow
  rw [jsGet_normFieldStep_ne _ _ _ _ (by decide), jsGet_normFieldStep_self,
    jsGet_normFieldStep_ne _ _ _ _ (by decide), jsGet_normWeekStep_ne _ _ (by decide)]

lemma jsGet_normalizeRow_wd (r : Row) :
    jsGet (normalizeRow r) "WaitingDays"
      = (jsGet r "WaitingDays").map (fun v => numOrNull (toNum v)) := by
  unfold normalizeRow
  rw [jsGet_normFieldStep_self, jsGet_normFieldStep_ne _ _ _ _ (by decide),
    jsGet_normFieldStep_ne _ _ _ _ (by decide), jsGet_normWeekStep_ne _ _ (by decide)]

lemma appt_chain_preserved (r : Row) :
    firstTruthy [jsGet (normalizeRow r) "AppointmentDay", jsGet (normalizeRow r) "Appointment",
        jsGet (normalizeRow r) "AppointmentDate"]
      = firstTruthy [jsGet r "AppointmentDay", jsGet r "Appointment",
          jsGet r "AppointmentDate"] := by
  rw [jsGet_normalizeRow_ne r "AppointmentDay" (by decide) (by decide) (by decide) (by decide),
    jsGet_normalizeRow_ne r "Appointment" (by decide) (by decide) (by decide) (by decide),
    jsGet_normalizeRow_ne r "AppointmentDate" (by decide) (by decide) (by decide) (by decide)]

lemma normWeekStep_normalizeRow (r : Row) :
    normWeekStep (normalizeRow r) = normalizeRow r
      ∧ jsGet (normalizeRow r) "Week" = some (resolveWeek (normalizeRow r)) := by
  by_cases hnd : weekNeedsDerive (jsGet r "Week") = true
  · have hW4 : jsGet (normalizeRow r) "Week" = some (resolveWeek r) := by
      rw [jsGet_normalizeRow_week]
      unfold normWeekStep
      rw [if_pos hnd]
      exact jsGet_setField_self _ _ _
    cases hchain : firstTruthy [jsGet r "AppointmentDay", jsGet r "Appointment",
        jsGet r "AppointmentDate"] with
    | none =>
      have hres : resolveWeek r = .str "Unknown" := resolveWeek_of_no_appt r hnd hchain
      have hneeds4 : weekNeedsDerive (jsGet (normalizeRow r) "Week") = true := by
        rw [hW4, hres]
        decide
      have hres4 : resolveWeek (normalizeRow r) = .str "Unknown" :=
        resolveWeek_of_no_appt _ hneeds4 (by rw [appt_chain_preserved]; exact hchain)
      refine ⟨?_, by rw [hW4, hres, hres4]⟩
      unfold normWeekStep
      rw [if_pos hneeds4, hres4]
      exact setField_eq_self _ _ _ (by rw [hW4, hres])
    | some a =>
      cases ht : jsNewDateMs a with
      | none =>
        have hres : resolveWeek r = .str "Unknown" := resolveWeek_of_bad_date r a hnd hchain ht
        have hneeds4 : weekNeedsDerive (jsGet (normalizeRow r) "Week") = true := by
          rw [hW4, hres]
          decide
        have hres4 : resolveWeek (normalizeRow r) = .str "Unknown" :=
          resolveWeek_of_bad_date _ a hneeds4 (by rw [appt_chain_preserved]; exact hchain) ht
        refine ⟨?_, by rw [hW4, hres, hres4]⟩
        unfold normWeekStep
        rw [if_pos hneeds4, hres4]
        exact setField_eq_self _ _ _ (by rw [hW4, hres])
      | some t =>
        have hres : resolveWeek r = .str (mondayLabel t) :=
          resolveWeek_of_parse r a t hnd hchain ht
        have hneeds4 : weekNeedsDerive (jsGet (normalizeRow r) "Week") = false := by
          rw [hW4, hres]
          exact weekNeedsDerive_monday t
        have hres4 : resolveWeek (normalizeRow r) = .str (mondayLabel t) := by
          rw [resolveWeek_eq, if_neg (by rw [hneeds4]; exact Bool.false_ne_true), hW4, hres]
          rfl
        refine ⟨?_, by rw [hW4, hres, hres4]⟩
        unfold normWeekStep
        rw [if_neg (by rw [hneeds4]; exact Bool.false_ne_true)]
  · have hfalse : weekNeedsDerive (jsGet r "Week") = false := by
      cases hww : weekNeedsDerive (jsGet r "Week")
      · rfl
      · exact absurd hww hnd
    have hW4 : jsGet (normalizeRow r) "Week" = jsGet r "Week" := by
      rw [jsGet_normalizeRow_week]
      unfold normWeekStep
      rw [if_neg hnd]
    cases hget : jsGet r "Week" with
    | none =>
      rw [hget] at hfalse
      simp [weekNeedsDerive] at hfalse
    | some v =>
      have hneeds4 : weekNeedsDerive (jsGet (normalizeRow r) "Week") = false := by
        rw [hW4]
        exact hfalse
      have hres4 : resolveWeek (normalizeRow r) = v := by
        rw [resolveWeek_eq, if_neg (by rw [hneeds4]; exact Bool.false_ne_true), hW4, hget]
        rfl
      refine ⟨?_, by rw [hW4, hget, hres4]⟩
      unfold normWeekStep
      rw [if_neg (by rw [hneeds4]; exact Bool.false_ne_true)]

/-- C10: per-record normalization plus feature derivation is idempotent —
    re-running the row normalization on its own output returns the identical
    row; toBin01 is idempotent on every value; toNum is stable on
    already-coerced results; and the Week property of a normalized row is
    exactly its own re-resolution (a label once resolved is unchanged). -/
theorem c10_normalization_idempotent :
    (∀ r : Row, normalizeRow (normalizeRow r) = normalizeRow r)
    ∧ (∀ v : JSVal, toBin01 (.str (toBin01 v)) = toBin01 v)
    ∧ (∀ o : Option ℚ, toNum (numOrNull o) = o)
    ∧ (∀ r : Row, jsGet (normalizeRow r) "Week" = some (resolveWeek (normalizeRow r))) := by
  refine ⟨?_, toBin01_idem, toNum_numOrNull, fun r => (normWeekStep_normalizeRow r).2⟩
  intro r
  show normFieldStep "WaitingDays" (fun v => numOrNull (toNum v))
    (normFieldStep "NoShow" (fun v => numOrNull (toNum v))
      (normFieldStep "SMS_received" (fun v => JSVal.str (toBin01 v))
        (normWeekStep (normalizeRow r)))) = normalizeRow r
  rw [(normWeekStep_normalizeRow r).1]
  have hsms : normFieldStep "SMS_received" (fun v => JSVal.str (toBin01 v)) (normalizeRow r)
      = normalizeRow r := by
    apply normFieldStep_fix
    intro v hv
    rw [jsGet_normalizeRow_sms] at hv
    cases hg : jsGet r "SMS_received" with
    | none =>
      rw [hg] at hv
      exact Option.noConfusion hv
    | some w =>
      rw [hg] at hv
      have hfw : JSVal.str (toBin01 w) = v := by
        have hsome : (some (JSVal.str (toBin01 w)) : Option JSVal) = some v := hv
        exact Option.some.inj hsome
      rw [← hfw]
      show JSVal.str (toBin01 (.str (toBin01 w))) = JSVal.str (toBin01 w)
      rw [toBin01_idem]
  rw [hsms]
  have hns : normFieldStep "NoShow" (fun v => numOrNull (toNum v)) (normalizeRow r)
      = normalizeRow r := by
    apply normFieldStep_fix
    intro v hv
    rw [jsGet_normalizeRow_noshow] at hv
    cases hg : jsGet r "NoShow" with
    | none =>
      rw [hg] at hv
      exact Option.noConfusion hv
    | some w =>
      rw [hg] at hv
      have hfw : numOrNull (toNum w) = v := by
        have hsome : (some (numOrNull (toNum w)) : Option JSVal) = some v := hv
        exact Option.some.inj hsome
      rw [← hfw]
      show numOrNull (toNum (numOrNull (toNum w))) = numOrNull (toNum w)
      rw [toNum_numOrNull]
  rw [hns]
  apply normFieldStep_fix
  intro v hv
  rw [jsGet_normalizeRow_wd] at hv
  cases hg : jsGet r "WaitingDays" with
  | none =>
    rw [hg] at hv
    exact Option.noConfusion hv
  | some w =>
    rw [hg] at hv
    have hfw : numOrNull (toNum w) = v := by
      have hsome : (some (numOrNull (toNum w)) : Option JSVal) = some v := hv
      exact Option.some.inj hsome
    rw [← hfw]
    show numOrNull (toNum (numOrNull (toNum w))) = numOrNull (toNum w)
    rw [toNum_numOrNull]

end NoShow
